import Mathlib

/-!
Verification development for the Shape2XML-HFGT topology reviser.

The Python source (`SnapEdges2Grid.py`, `AMES.py`) is shallowly embedded:
sparse COO matrices become lists of entries carrying `(row, col, x, y)`;
the NumPy float arithmetic becomes exact arithmetic, and every comparison
`dist <= eps` of a Euclidean distance (computed in the source as
`(dx**2 + dy**2) ** 0.5`) is embedded as the equivalent comparison
`dx^2 + dy^2 <= eps^2` of squared quantities, which avoids square roots;
`np.argmin` becomes an explicit left fold keeping the first minimum.

Coordinates are embedded as integers in units of `10^-7` degree.  This
grid is exact for every input the design admits — the spec fixes GPS
precision at four decimal places of a degree — and the three clustering
radii are themselves exact multiples of the unit: `eps1 = 0.001446 =
14460`, `eps2 = 0.014465 = 144650` and `eps3 = 0.5075 = 5075000` units.
Only the midpoint collapse (`getClustMidpointsRef`), which genuinely
divides, is embedded over `ℚ`.

Python-level quirks that the source relies on (NumPy truthiness of index
arrays, name reuse of `new_instance` across loop iterations, substring
tests with `in`) are embedded faithfully and are documented where they
occur.
-/

deriving instance DecidableEq for Except

namespace Shape2XML

/-- One stored entry of a sparse coordinate (COO) matrix of GPS positions:
`row` is the point-row, `col` the refinement column, `(x, y)` the stored
coordinates (the X entry and the aligned Y entry are kept together). -/
structure Entry where
  row : Nat
  col : Nat
  x : ℤ
  y : ℤ
deriving DecidableEq, Repr

/-- Default entry used by out-of-range `getD` reads (never reached on the
index sets the algorithms build, which are filters of `List.range`). -/
def dEntry : Entry := ⟨0, 0, 0, 0⟩

/-- Squared planar distance between coordinate pairs (in squared grid
units, i.e. `10^-14` square degree). -/
def sqDist (x1 y1 x2 y2 : ℤ) : ℤ := (x1 - x2) ^ 2 + (y1 - y2) ^ 2

/-- Squared planar Euclidean distance between two entries, embedding the
source's `((dx)**2 + (dy)**2)**0.5` (compared against squared radii). -/
def dist2 (a b : Entry) : ℤ := sqDist a.x a.y b.x b.y

/-- `eps1 = 0.001446` degrees, the primary clustering radius, in grid
units of `10^-7` degree. -/
def eps1 : ℤ := 14460

/-- `eps2 = 0.014465` degrees, the secondary clustering radius, in grid
units. -/
def eps2 : ℤ := 144650

/-- `eps3 = 0.5075` degrees, the tertiary clustering radius, in grid
units. -/
def eps3 : ℤ := 5075000

/-- Indices of the entries of `l` whose refinement column is `c`
(`np.where(m.col == c)[0]`, in stored-entry order). -/
def colIdx (l : List Entry) (c : Nat) : List Nat :=
  (List.range l.length).filter (fun i => (l.getD i dEntry).col == c)

/-- Indices of the entries of `l` whose point-row is `r`
(`np.where(m.row == r)[0]`, in stored-entry order). -/
def rowIdx (l : List Entry) (r : Nat) : List Nat :=
  (List.range l.length).filter (fun i => (l.getD i dEntry).row == r)

/-- `np.argmin` of `f` over a nonempty index list: the first index
attaining the minimal key.  On `[]` it returns `0` (NumPy would raise). -/
def argminFirst (f : Nat → ℤ) : List Nat → Nat
  | [] => 0
  | i :: rest => rest.foldl (fun b j => if f j < f b then j else b) i

/-- Write value `v` at every index of `idxs` in the cluster array
(`clusters[idxs] = v`). -/
def assign (cl : List (Option Nat)) (idxs : List Nat) (v : Option Nat) :
    List (Option Nat) :=
  idxs.foldl (fun c i => c.set i v) cl

/-- State threaded through `snapEdges2GridRef`: the per-entry cluster
array, the next fresh cluster id, and the synthetic transporter queue
`resourcesToAdd`. -/
structure SnapState where
  clusters : List (Option Nat)
  clust : Nat
  resourcesToAdd : List (Nat × Nat)
deriving DecidableEq, Repr

/-- Body of the primary pass's inner loop (`SnapEdges2Grid.py` lines
45-57) for one endpoint entry `k2`: candidates are the entries of the same
refinement column within `eps1`; if any candidate is clustered, the
unclustered candidates join the cluster of the clustered candidate at
minimal distance (`np.argmin`, first on ties); otherwise all candidates
receive one fresh cluster id. -/
def innerStep (pts : List Entry) (st : SnapState) (k2 : Nat) : SnapState :=
  let e2 := pts.getD k2 dEntry
  let refIdx := colIdx pts e2.col
  let foundIDX := refIdx.filter (fun i => dist2 e2 (pts.getD i dEntry) ≤ eps1 ^ 2)
  if foundIDX.any (fun i => (st.clusters.getD i none).isSome) then
    let clusteredIDX := foundIDX.filter (fun i => (st.clusters.getD i none).isSome)
    let best := argminFirst (fun i => dist2 e2 (pts.getD i dEntry)) clusteredIDX
    let ext := st.clusters.getD best none
    { st with clusters :=
        assign st.clusters (foundIDX.filter (fun i => (st.clusters.getD i none).isNone)) ext }
  else
    { st with clusters := assign st.clusters foundIDX (some st.clust),
              clust := st.clust + 1 }

/-- Body of the primary pass's outer loop (`SnapEdges2Grid.py` lines
41-57) for one endpoint row `k1`: a row any of whose entries is already
clustered is skipped; otherwise each entry of the row is processed. -/
def primaryStep (ptsOD pts : List Entry) (st : SnapState) (k1 : Nat) : SnapState :=
  let lineIdx := rowIdx ptsOD k1
  if lineIdx.any (fun i => (st.clusters.getD i none).isSome) then st
  else lineIdx.foldl (innerStep pts) st

/-- The primary clustering pass: iterate the endpoint rows `0 ..
nRowsOD-1` in order. -/
def snapPrimary (ptsOD pts : List Entry) (nRowsOD : Nat) (st : SnapState) : SnapState :=
  (List.range nRowsOD).foldl (primaryStep ptsOD pts) st

/-- Indices of the still-unclustered entries
(`np.where(np.equal(clusters, None))[0]`). -/
def isoNodes (cl : List (Option Nat)) : List Nat :=
  (List.range cl.length).filter (fun i => (cl.getD i none).isNone)

/-- Body of the secondary pass (`SnapEdges2Grid.py` lines 64-76) for one
unclustered entry `k2`.  The source's emptiness test `if not
refIdx.any(): continue` uses `ndarray.any()`, which is an elementwise
truthiness test: it is `False` both for an empty index array and for the
index array `[0]`; this is embedded verbatim. -/
def secondaryStep (ptsOD pts : List Entry) (st : SnapState) (k2 : Nat) : SnapState :=
  let e := pts.getD k2 dEntry
  let refIdx := colIdx ptsOD e.col
  if ¬ refIdx.any (fun i => i != 0) then st
  else
    let nearest := argminFirst (fun i => dist2 e (ptsOD.getD i dEntry)) refIdx
    let dmin := dist2 e (ptsOD.getD nearest dEntry)
    if dmin ≤ eps2 ^ 2 then
      { st with clusters := st.clusters.set k2 (st.clusters.getD nearest none) }
    else if dmin ≤ eps3 ^ 2 then
      { st with clusters := st.clusters.set k2 (some st.clust),
                clust := st.clust + 1,
                resourcesToAdd := st.resourcesToAdd ++ [(k2, nearest)] }
    else st

/-- The secondary pass: the set of isolated entries is computed once, then
each is processed in index order. -/
def snapSecondary (ptsOD pts : List Entry) (st : SnapState) : SnapState :=
  (isoNodes st.clusters).foldl (secondaryStep ptsOD pts) st

/-- Initial clustering state: `clusters = [None] * n`, fresh id `0`,
empty synthetic transporter queue. -/
def initState (n : Nat) : SnapState := ⟨List.replicate n none, 0, []⟩

/-- The spatial clusterer `snapEdges2GridRef` (clustering part, lines
30-76): the unified point table is `ptsOD ++ ptsB` (line endpoints first,
buffers second, as produced by `sp.vstack((ptsODX, ptsBX))`), and the
primary pass is followed by the secondary pass.  `nRowsOD` is
`ptsODX.shape[0]`. -/
def snapEdges2GridRef (ptsOD ptsB : List Entry) (nRowsOD : Nat) : SnapState :=
  let pts := ptsOD ++ ptsB
  snapSecondary ptsOD pts (snapPrimary ptsOD pts nRowsOD (initState pts.length))

/-- Insert a natural number into a sorted duplicate-free list, keeping it
sorted and duplicate-free. -/
def insertSortedNat (a : Nat) : List Nat → List Nat
  | [] => [a]
  | b :: bs =>
    if a < b then a :: b :: bs
    else if a = b then b :: bs
    else b :: insertSortedNat a bs

/-- `np.unique` on an integer array: the sorted list of distinct values. -/
def sortedUnique (l : List Nat) : List Nat :=
  l.foldl (fun acc a => insertSortedNat a acc) []

/-- Write value `v` at every index of `idxs` (NumPy fancy-index
assignment `arr[idxs] = v`). -/
def setAll {α : Type} (l : List α) (idxs : List Nat) (v : α) : List α :=
  idxs.foldl (fun c i => c.set i v) l

/-- `np.mean` of the values of `xs` at the indices `idxs`. -/
def meanAt (xs : List ℚ) (idxs : List Nat) : ℚ :=
  (idxs.map (fun i => xs.getD i 0)).sum / (idxs.length : ℚ)

/-- Result of `getClustMidpointsRef`: the per-cluster centers, the
per-entry midpoint array, and the two coordinate data arrays after the
in-place collapse. -/
structure MidState where
  clustCenter : List (ℚ × ℚ)
  midpoint : List (ℚ × ℚ)
  xs : List ℚ
  ys : List ℚ
deriving DecidableEq, Repr

/-- The entry positions belonging to cluster `c`
(`np.where(clusters == clusts[k1])[0]`). -/
def clustMembers (clusters : List (Option Nat)) (c : Nat) : List Nat :=
  (List.range clusters.length).filter (fun i => clusters.getD i none == some c)

/-- One iteration of `getClustMidpointsRef`'s loop (`SnapEdges2Grid.py`
lines 100-106) for cluster id `c`: the members' mean position is recorded
as the cluster center and written back over every member's coordinates.
The cluster array itself is never mutated by the loop. -/
def midStep (clusters : List (Option Nat)) (st : MidState) (c : Nat) : MidState :=
  let clustIDX := clustMembers clusters c
  let cx := meanAt st.xs clustIDX
  let cy := meanAt st.ys clustIDX
  { clustCenter := st.clustCenter ++ [(cx, cy)],
    midpoint := setAll st.midpoint clustIDX (cx, cy),
    xs := setAll st.xs clustIDX cx,
    ys := setAll st.ys clustIDX cy }

/-- `getClustMidpointsRef` (`SnapEdges2Grid.py` lines 83-108): for each
distinct non-null cluster id (in `np.unique` order), collapse the members
onto their mean.  `midpoint` is preallocated as `(0,0)` per entry and
`clustCenter` is filled in cluster order (embedded by appending). -/
def getClustMidpointsRef (xs ys : List ℚ) (clusters : List (Option Nat)) : MidState :=
  let clusts := sortedUnique (clusters.filterMap id)
  clusts.foldl (midStep clusters)
    ⟨[], List.replicate clusters.length (0, 0), xs, ys⟩

/-! ### The AMES data model

Buffers (`self.nodes`) and transporters (`self.lines`) are embedded as
records carrying the attributes the revision core reads or writes.  A
transporter endpoint (`fBus` / `tBus` / `attrib_origin` / `attrib_dest`)
is dynamically typed in Python — first a coordinate tuple, later a buffer
name — and is embedded as the sum `BusRef`. -/

/-- A transporter endpoint value: a bare geolocation or a buffer name. -/
inductive BusRef where
  | loc (x y : ℤ)
  | name (s : String)
deriving DecidableEq, Repr

/-- A buffer (node) record with the fields used by the revision core.
`cluster` starts as Python `None`; the first append turns it into a
one-element list, which is embedded by letting `[]` stand for `None`
(the two are observationally equal for every later read). -/
structure Node where
  nodeType : String := ""
  nodeName : String := ""
  busName : String := ""
  gpsX : ℤ := 0
  gpsY : ℤ := 0
  refinement : List String := []
  attrib_ref : List String := []
  fuelType : List String := []
  cap : List ℚ := []
  cluster : List (Option Nat) := []
  controller : List String := []
  status : String := ""
deriving DecidableEq, Repr

/-- Default node for out-of-range reads. -/
def defNode : Node := {}

/-- A transporter (line) record.  `lineKind` embeds the source attribute
`type` (a Lean keyword).  `reviseOil` assigns a whole cluster *list* to
`clust_origin` / `clust_dest` (the nodes' `cluster` attribute); since the
embedded `clust_origin` holds a single id, those list values are carried
in `clustOriginList` / `clustDestList` (they are never compared by any
later code). -/
structure Line where
  lineName : String := ""
  lineKind : String := ""
  refinement : List String := []
  fuelType : List String := []
  attrib_ref : List String := []
  clust_origin : Option Nat := none
  clust_dest : Option Nat := none
  clustOriginList : List (Option Nat) := []
  clustDestList : List (Option Nat) := []
  fBus : BusRef := .loc 0 0
  tBus : BusRef := .loc 0 0
  fBus_gps : ℤ × ℤ := (0, 0)
  tBus_gps : ℤ × ℤ := (0, 0)
  attrib_origin : BusRef := .loc 0 0
  attrib_dest : BusRef := .loc 0 0
  status : String := ""
  controller : List String := []
deriving DecidableEq, Repr

/-- Default line for out-of-range reads. -/
def defLine : Line := {}

/-- The shared mutable revision state of `AMES`: the transporter list,
the buffer list, the per-entry cluster array and the per-entry point-row
array (`resourceIdx = ptsX.row`). -/
structure AState where
  lines : List Line
  nodes : List Node
  clusters : List (Option Nat)
  resourceIdx : List Nat
deriving DecidableEq, Repr

/-- Entry positions whose cluster id equals `v`
(`np.where(clusters == v)[0]`). -/
def positionsOf (clusters : List (Option Nat)) (v : Option Nat) : List Nat :=
  (List.range clusters.length).filter (fun i => clusters.getD i none == v)

/-- Entry positions whose point-row equals `v`
(`np.where(resourceIdx == v)[0]`). -/
def resPositions (resourceIdx : List Nat) (v : Nat) : List Nat :=
  (List.range resourceIdx.length).filter (fun i => resourceIdx.getD i 0 == v)

/-- Python `max(arr)` over a row array (the source never calls it on an
empty array; `0` stands in for that error case). -/
def maxNat (l : List Nat) : Nat := l.foldl max 0

/-- `np.delete(l, posns)`: keep the elements whose position is not
listed, preserving order. -/
def removeAt {α : Type} (l : List α) (posns : List Nat) : List α :=
  (l.enum.filter (fun p => decide (p.1 ∉ posns))).map Prod.snd

/-- `l[start:] = l[start:] - amt` on a row array (the source's arrays
hold machine integers; on every pipeline-shaped input the decremented
values are at least `amt`, so natural subtraction is exact). -/
def shiftFromBy : List Nat → Nat → Nat → List Nat
  | [], _, _ => []
  | v :: vs, 0, amt => (v - amt) :: shiftFromBy vs 0 amt
  | v :: vs, s + 1, amt => v :: shiftFromBy vs s amt

/-- Insert a string into a sorted duplicate-free list (by `Ord String`). -/
def insertSortedStr (a : String) : List String → List String
  | [] => [a]
  | b :: bs =>
    match compare a b with
    | .lt => a :: b :: bs
    | .eq => b :: bs
    | .gt => b :: insertSortedStr a bs

/-- `np.unique` on a string array: sorted distinct values. -/
def sortedUniqueStr (l : List String) : List String :=
  l.foldl (fun acc a => insertSortedStr a acc) []

/-- Python `list(set(a) & set(b))`: the distinct common elements (the
embedding fixes the iteration order of the Python set to the order of
`a`; all later uses are order-insensitive). -/
def listInter (a b : List String) : List String :=
  (a.filter (fun s => b.contains s)).dedup

/-- Append each element of `src` to `dst` unless already present — the
source's `for c in src: if c not in dst: dst.append(c)` idiom. -/
def unionInto (dst src : List String) : List String :=
  src.foldl (fun d c => if d.contains c then d else d ++ [c]) dst

/-- Does the list `needle` occur at the head of `hay`? -/
def charsHasPre : List Char → List Char → Bool
  | [], _ => true
  | _ :: _, [] => false
  | c :: cs, d :: ds => c == d && charsHasPre cs ds

/-- Python `needle in hay` on strings: substring containment. -/
def charsContains (needle : List Char) : List Char → Bool
  | [] => charsHasPre needle []
  | d :: ds => charsHasPre needle (d :: ds) || charsContains needle ds

/-- Python `name in busref`: a substring test when the endpoint is a
string, membership in a pair of numbers (always false) when it is still
a geolocation tuple. -/
def busContains (b : BusRef) (s : String) : Bool :=
  match b with
  | .name t => charsContains s.data t.data
  | .loc _ _ => false

/-! ### C3 — `updateTransporters` (`AMES.py` lines 376-522)

The loop body keeps reusing the Python name `new_instance`.  When a
refinement is recognized a fresh object is built, mutated and appended;
when it is not, the `else` only prints and the code falls through to the
mutation/append block, which then mutates and **re-appends the object
left over from the previous iteration** (a `NameError` if there is
none).  Appending a Python object appends a reference, so the embedding
keeps a `store` of objects plus a list `outIds` of references into it;
the emitted line list is read off at the end. -/

/-- Accumulator of the `updateTransporters` loop: the object store and
reference list for `lines`, the parallel append-lists, and the
counters. -/
structure UTAcc where
  store : List Line
  outIds : List Nat
  clust : List (Option Nat)
  gps : List (ℤ × ℤ)
  rows : List Nat
  cols : List Nat
  dataX : List ℤ
  dataY : List ℤ
  count : Nat
  transmissionCount : Nat
  NGCount : Nat
  oilRefCount : Nat
  oilCrudeCount : Nat
  coalCount : Nat
  otherCount : Nat
deriving DecidableEq, Repr

/-- The refinement dispatch of `updateTransporters` (lines 410-476):
build a typed transporter for a recognized refinement class, or nothing
for an unrecognized one.  `elecN` etc. are `len(subsystem.lineList)`
when the subsystem is present, `none` when it is absent. -/
def utBuild (elecN ngN oilRefN oilCrudeN coalN : Option Nat) (acc : UTAcc)
    (ref : String) : Option Line × UTAcc :=
  if ref = "electric power at 132kV" then
    let n := acc.transmissionCount + 1
    (some { lineName := "Transmission Line " ++ toString (elecN.getD 0 + n),
            refinement := [ref], fuelType := [ref], attrib_ref := [ref],
            lineKind := "ElecLine" },
     { acc with transmissionCount := n })
  else if ref = "processed gas" ∨ ref = "syngas" ∨ ref = "raw gas" then
    let n := acc.NGCount + 1
    (some { lineName := "NG Pipeline " ++ toString (ngN.getD 0 + n),
            refinement := [ref], fuelType := [ref], attrib_ref := [ref],
            lineKind := "NGPipe" },
     { acc with NGCount := n })
  else if ref = "processed oil" then
    let n := acc.oilRefCount + 1
    (some { lineName := "OilR Pipeline " ++ toString (oilRefN.getD 0 + n),
            refinement := [ref], fuelType := [ref], attrib_ref := [ref],
            lineKind := "oilRPipe" },
     { acc with oilRefCount := n })
  else if ref = "crude oil" ∨ ref = "liquid biomass feedstock" ∨ ref = "water energy" then
    let n := acc.oilCrudeCount + 1
    (some { lineName := "OilC Pipeline " ++ toString (oilCrudeN.getD 0 + n),
            refinement := [ref], fuelType := [ref], attrib_ref := [ref],
            lineKind := "oilCrudePipe" },
     { acc with oilCrudeCount := n })
  else if ref = "coal" then
    let n := acc.coalCount + 1
    (some { lineName := "coal railroad " ++ toString (coalN.getD 0 + n),
            refinement := [ref], fuelType := [ref], attrib_ref := [ref],
            lineKind := "railroad" },
     { acc with coalCount := n })
  else if ref = "other" ∨ ref = "solid biomass feedstock" ∨ ref = "uranium" then
    let n := acc.otherCount + 1
    (some { lineName := "Other Pipeline " ++ toString n,
            refinement := [ref], fuelType := [ref], attrib_ref := [ref],
            lineKind := "otherPipe" },
     { acc with otherCount := n })
  else
    (none, acc)  -- `print('unhandled refinement ...')` and fall through

/-- One iteration of the `updateTransporters` loop (lines 408-503) on
queue entry number `i` holding `(k1[0], k1[1])`.  The mutation/append
block (lines 479-503) runs unconditionally; with no freshly built object
it targets the previous iteration's object, and raises `NameError` on
the very first iteration. -/
def utStep (refinements : List String) (pts : List Entry)
    (clusters : List (Option Nat)) (elecN ngN oilRefN oilCrudeN coalN : Option Nat)
    (linesLen : Nat) (acc : UTAcc) (ik : Nat × Nat × Nat) : Except String UTAcc :=
  let i := ik.1
  let a := ik.2.1
  let b := ik.2.2
  let eb := pts.getD b dEntry
  let ea := pts.getD a dEntry
  let ref := refinements.getD eb.col ""
  let (built, acc1) := utBuild elecN ngN oilRefN oilCrudeN coalN acc ref
  let store1 := match built with
    | some nl => acc1.store ++ [nl]
    | none => acc1.store
  if store1 = [] then Except.error "NameError: new_instance is not defined"
  else
    let id := store1.length - 1
    let obj := store1.getD id defLine
    let obj' := { obj with
      fBus := .loc eb.x eb.y, tBus := .loc ea.x ea.y,
      fBus_gps := (eb.x, eb.y), tBus_gps := (ea.x, ea.y),
      status := "true",
      clust_origin := clusters.getD b none, clust_dest := clusters.getD a none,
      attrib_origin := .loc eb.x eb.y, attrib_dest := .loc ea.x ea.y }
    Except.ok { acc1 with
      store := store1.set id obj',
      outIds := acc1.outIds ++ [id],
      clust := acc1.clust ++ [clusters.getD b none, clusters.getD a none],
      gps := acc1.gps ++ [(eb.x, eb.y), (ea.x, ea.y)],
      rows := acc1.rows ++ [i * 2 + linesLen * 2, i * 2 + 1 + linesLen * 2],
      cols := acc1.cols ++ [eb.col, eb.col],
      dataX := acc1.dataX ++ [eb.x, ea.x],
      dataY := acc1.dataY ++ [eb.y, ea.y],
      count := acc1.count + 1 }

/-- The initial (empty) accumulator of the `updateTransporters` loop. -/
def utInit : UTAcc := ⟨[], [], [], [], [], [], [], [], 0, 0, 0, 0, 0, 0, 0⟩

/-- The `updateTransporters` creation loop (lines 391-503).  The final
splice of the new endpoint entries into the point table (lines 505-520)
happens after this loop and is independent of the claim settled here. -/
def updateTransportersLoop (refinements : List String) (pts : List Entry)
    (clusters : List (Option Nat)) (elecN ngN oilRefN oilCrudeN coalN : Option Nat)
    (linesLen : Nat) (resourcesToAdd : List (Nat × Nat)) : Except String UTAcc :=
  resourcesToAdd.enum.foldlM
    (utStep refinements pts clusters elecN ngN oilRefN oilCrudeN coalN linesLen) utInit

/-- The list of line objects appended to `self.lines` by the loop: the
reference list materialized against the final store (aliasing visible). -/
def utEmitted (acc : UTAcc) : List Line :=
  acc.outIds.map (fun i => acc.store.getD i defLine)

/-! ### C4 — `reviseCoords` (`AMES.py` lines 572-641)

The first loop pushes the clustered midpoints back onto the transporter
and buffer records and collects the self-looping transporters; the
second loop removes them, deleting each one's two point-table entries
and shifting the downstream point-rows by `-2`.  The read-only
bookkeeping for newly isolated buffers (lines 624-637) mutates only
buffer records and is outside the embedded core. -/

/-- One iteration of the field-setting loop of `reviseCoords` (lines
591-615) for entry position `k1`. -/
def rcSetStep (pts : List (ℤ × ℤ)) (numEndpoints : Nat)
    (sd : AState × List Nat) (k1 : Nat) : AState × List Nat :=
  let st := sd.1
  let del := sd.2
  let r := st.resourceIdx.getD k1 0
  let p := pts.getD k1 (0, 0)
  if numEndpoints ≤ r then
    let ni := r - numEndpoints
    let nd := st.nodes.getD ni defNode
    let nd' := { nd with
      cluster := if nd.cluster = [] then [st.clusters.getD k1 none]
                 else nd.cluster ++ [st.clusters.getD k1 none],
      gpsX := p.1, gpsY := p.2 }
    ({ st with nodes := st.nodes.set ni nd' }, del)
  else if r % 2 = 0 then
    let li := r / 2
    let l := st.lines.getD li defLine
    let l' := { l with attrib_origin := .loc p.1 p.2,
                       clust_origin := st.clusters.getD k1 none }
    ({ st with lines := st.lines.set li l' }, del)
  else
    let li := r / 2
    let l := st.lines.getD li defLine
    let l' := { l with attrib_dest := .loc p.1 p.2,
                       clust_dest := st.clusters.getD k1 none }
    let del' := if l'.clust_origin = l'.clust_dest then del ++ [li] else del
    ({ st with lines := st.lines.set li l' }, del')

/-- `np.delete(arr, [2k+1, 2k])`: drop the two entries of line `k`. -/
def eraseIdxPair {α : Type} (l : List α) (k : Nat) : List α :=
  (l.eraseIdx (k + 1)).eraseIdx k

/-- One self-loop removal (lines 617-623) of line `k2`: the line is
dropped, its two entries are deleted from the cluster and point-row
arrays, and every entry from position `2·k2` on has its point-row
decremented by 2. -/
def rcRemoveStep (st : AState) (k2 : Nat) : AState :=
  { st with
    lines := st.lines.eraseIdx k2,
    clusters := eraseIdxPair st.clusters (2 * k2),
    resourceIdx := shiftFromBy (eraseIdxPair st.resourceIdx (2 * k2)) (2 * k2) 2 }

/-- The core of `reviseCoords`: set fields from the collapsed points,
then remove the collected self-loops in reversed collection order
(`np.flip(del_lines)`). -/
def reviseCoordsCore (pts : List (ℤ × ℤ)) (st : AState) : AState :=
  let numEndpoints := st.lines.length * 2
  let sd := (List.range pts.length).foldl (rcSetStep pts numEndpoints) (st, [])
  sd.2.reverse.foldl rcRemoveStep sd.1

/-! ### C4 — `joinLineSegs` (`AMES.py` lines 748-824)

A `while` loop that either fuses the current line with its unique
cluster partner (staying at the same index) or advances.  It is embedded
with explicit fuel; every fusion shrinks the line list, so the measure
`2*len(lines) - k1` justifies the initial fuel, and the preservation
theorems hold for every fuel value. -/

/-- The common fusion tail (lines 777-790 / 807-819): re-label the kept
endpoint's entries, delete the absorbed line's two entries, shift the
downstream point-rows by `-2` (when any remain), and drop the absorbed
line.  `originSide` tells which endpoint of `pipe1` was re-routed. -/
def jlsFinish (st : AState) (k1 idxPipe2 : Nat) (pipe1 : Line)
    (originSide : Bool) : Except String (AState × Nat) :=
  let targetRes := if originSide then k1 * 2 else k1 * 2 + 1
  let newClust := if originSide then pipe1.clust_origin else pipe1.clust_dest
  let clusters1 := setAll st.clusters (resPositions st.resourceIdx targetRes) newClust
  let idx2Del1 := resPositions st.resourceIdx (idxPipe2 * 2)
  let clusters2 := removeAt clusters1 idx2Del1
  let res2 := removeAt st.resourceIdx idx2Del1
  let idx2Del2 := resPositions res2 (idxPipe2 * 2 + 1)
  let clusters3 := removeAt clusters2 idx2Del2
  let res3 := removeAt res2 idx2Del2
  let shifted : Except String (List Nat) :=
    if idxPipe2 * 2 + 1 < maxNat res3 then
      match (List.range res3.length).find? (fun i => res3.getD i 0 == (idxPipe2 + 1) * 2) with
      | some idx => Except.ok (shiftFromBy res3 idx 2)
      | none => Except.error "IndexError: np.where(...)[0][0] on empty result"
    else Except.ok res3
  shifted.map (fun res4 =>
    ({ st with lines := (st.lines.set k1 pipe1).eraseIdx idxPipe2,
               clusters := clusters3, resourceIdx := res4 }, k1))

/-- One iteration of the `joinLineSegs` `while` body for index `k1`:
examine the origin cluster, then (only if the origin side did not apply)
the destination cluster; fusion keeps `k1`, everything else advances. -/
def jlsIter (st : AState) (k1 : Nat) : Except String (AState × Nat) :=
  let L2 := st.lines.length * 2
  let pipe1 := st.lines.getD k1 defLine
  let resO := sortedUnique ((positionsOf st.clusters pipe1.clust_origin).map
    (fun i => st.resourceIdx.getD i 0))
  if resO.length = 2 ∧ resO.all (fun r => decide (r < L2)) then
    match resO.filter (fun r => decide (r ≠ k1 * 2)) with
    | [o] =>
      let pipe2 := st.lines.getD (o / 2) defLine
      if pipe1.clust_origin = pipe2.clust_dest ∧ ¬ pipe1.clust_dest = pipe2.clust_origin then
        jlsFinish st k1 (o / 2)
          { pipe1 with clust_origin := pipe2.clust_origin,
                       attrib_origin := pipe2.attrib_origin } true
      else if pipe1.clust_origin = pipe2.clust_origin ∧ ¬ pipe1.clust_dest = pipe2.clust_dest then
        jlsFinish st k1 (o / 2)
          { pipe1 with clust_origin := pipe2.clust_dest,
                       attrib_origin := pipe2.attrib_dest } true
      else Except.ok (st, k1 + 1)  -- looping lines: advance, skip the destination side
    | _ => Except.error "TypeError: idxPipe2 is not a single index"
  else
    let resD := sortedUnique ((positionsOf st.clusters pipe1.clust_dest).map
      (fun i => st.resourceIdx.getD i 0))
    if resD.length = 2 ∧ resD.all (fun r => decide (r < L2)) then
      match resD.filter (fun r => decide (r ≠ k1 * 2 + 1)) with
      | [o] =>
        let pipe2 := st.lines.getD (o / 2) defLine
        if pipe1.clust_dest = pipe2.clust_dest ∧ ¬ pipe1.clust_origin = pipe2.clust_origin then
          jlsFinish st k1 (o / 2)
            { pipe1 with clust_dest := pipe2.clust_origin,
                         attrib_dest := pipe2.attrib_origin } false
        else if pipe1.clust_dest = pipe2.clust_origin ∧ ¬ pipe1.clust_origin = pipe2.clust_dest then
          jlsFinish st k1 (o / 2)
            { pipe1 with clust_dest := pipe2.clust_dest,
                         attrib_dest := pipe2.attrib_dest } false
        else Except.ok (st, k1 + 1)
      | _ => Except.error "TypeError: idxPipe2 is not a single index"
    else Except.ok (st, k1 + 1)

/-- Fuel-indexed driver of the `joinLineSegs` `while` loop. -/
def jlsRun : Nat → AState → Nat → Except String AState
  | 0, _, _ => Except.error "fuel exhausted"
  | fuel + 1, st, k1 =>
    if k1 < st.lines.length then
      match jlsIter st k1 with
      | .error e => .error e
      | .ok (st', k1') => jlsRun fuel st' k1'
    else Except.ok st

/-- `joinLineSegs`: run the loop from `k1 = 0`.  Each iteration either
advances `k1` or removes a line, so `2*len(lines)+1` fuel suffices. -/
def joinLineSegs (st : AState) : Except String AState :=
  jlsRun (2 * st.lines.length + 1) st 0

/-! ### C3/C5 — `addIndBuffers` (`AMES.py` lines 826-949) -/

/-- Accumulator of the `addIndBuffers` loop. -/
structure IndAcc where
  count : Nat
  buffers : List Node
  expandedClusts : List (Option Nat)
  expandedBuffers : List Nat
deriving DecidableEq, Repr

/-- The refinement dispatch of `addIndBuffers` (lines 853-941): the
class of the synthesized junction buffer, `none` for the unhandled
(print-only) case. -/
def indFamilyType (refs : List String) : Option String :=
  if refs.contains "electric power at 132kV" then some "Bus"
  else if refs.contains "processed gas" || refs.contains "syngas"
      || refs.contains "raw gas" then some "NGIndBuffer"
  else if refs.contains "processed oil" || refs.contains "crude oil"
      || refs.contains "liquid biomass feedstock"
      || refs.contains "water energy" then some "OilIndBuffer"
  else if refs.contains "solid biomass feedstock" then some "OilIndBuffer"
  else if refs.contains "coal" then some "CoalIndBuffer"
  else if refs.contains "other" then some "Bus"
  else none

/-- One iteration of `addIndBuffers` for the `k1`-th unique cluster id
`c`.  Note the faithful absence of any endpoint-count check: the only
guard is `if any(resources >= len(self.lines) * 2): continue`, i.e.
"the cluster contains a buffer entry".  Also faithfully, the buffer is
placed at `clustCenters[k1]` — indexed by the position in the *current*
unique cluster list, while `clustCenters` is aligned to the cluster ids
of the original clustering. -/
def indStep (st : AState) (clustCenters : List (ℤ × ℤ)) (acc : IndAcc)
    (kc : Nat × Nat) : IndAcc :=
  let k1 := kc.1
  let c := kc.2
  let clustPos := positionsOf st.clusters (some c)
  let resources := sortedUnique (clustPos.map (fun i => st.resourceIdx.getD i 0))
  if resources.any (fun r => decide (st.lines.length * 2 ≤ r)) then acc
  else
    let refs := sortedUniqueStr (resources.foldl
      (fun a k2 => a ++ (st.lines.getD (k2 / 2) defLine).refinement) [])
    match indFamilyType refs with
    | none => acc  -- `print('Unhandled refinements in addIndBuffer')`
    | some ty =>
      let ctr := clustCenters.getD k1 (0, 0)
      let nd : Node := { nodeType := ty,
                         nodeName := "IndBuffer " ++ toString acc.count,
                         busName := "IndBuffer " ++ toString acc.count,
                         gpsX := ctr.1, gpsY := ctr.2,
                         cluster := [some c], status := "true", attrib_ref := refs }
      { count := acc.count + 1,
        buffers := acc.buffers ++ [nd],
        expandedClusts := acc.expandedClusts ++ [some c],
        expandedBuffers := acc.expandedBuffers ++ [maxNat st.resourceIdx + acc.count + 1] }

/-- `addIndBuffers`: sweep the unique cluster ids and append the
synthesized junction buffers and their entries. -/
def addIndBuffers (st : AState) (clustCenters : List (ℤ × ℤ)) : AState :=
  let clustsU := sortedUnique (st.clusters.filterMap id)
  let acc := clustsU.enum.foldl (indStep st clustCenters) ⟨0, [], [], []⟩
  { st with nodes := st.nodes ++ acc.buffers,
            clusters := st.clusters ++ acc.expandedClusts,
            resourceIdx := st.resourceIdx ++ acc.expandedBuffers }

/-! ### C5 — `findClusterPrimary` (`AMES.py` lines 996-1082)

One sequential scan per line type, carrying `(primaryNode,
primaryNodeType, primaryNodeIdx)`; the top class of each table returns
immediately (`break`), the other branches overwrite the running
primary under the exact guards of the source. -/

/-- The `ElecLine` scan. -/
def fcpElec : List (Nat × Node) → Option Node → Option String → Option Nat →
    Option Node × Option Nat
  | [], pN, _, pI => (pN, pI)
  | (i, n) :: rest, pN, pT, pI =>
    if n.nodeType = "LoadC" then (some n, some i)
    else if n.nodeType = "LoadS" then
      fcpElec rest (some n) (some "LoadS") (some i)
    else if n.nodeType = "GenC" ∧ pT ≠ some "LoadS" then
      fcpElec rest (some n) (some "GenC") (some i)
    else if n.nodeType = "GenS" ∧ pT ≠ some "LoadS" ∧ pT ≠ some "GenC" then
      fcpElec rest (some n) (some "GenS") (some i)
    else fcpElec rest pN pT pI

/-- The `NGPipe` scan.  The final `else` of the source has no guard, so
every node that is not an `NGReceiptDelivery` (and does not fall into
one of the two earlier overwriting branches) still overwrites the
running primary. -/
def fcpNG : List (Nat × Node) → Option Node → Option String → Option Nat →
    Option Node × Option Nat
  | [], pN, _, pI => (pN, pI)
  | (i, n) :: rest, _pN, pT, _pI =>
    if n.nodeType = "NGReceiptDelivery" then (some n, some i)
    else if n.nodeType = "NGProcessor" then
      fcpNG rest (some n) (some "NGProcessor") (some i)
    else if n.nodeType = "compressor" ∧ pT ≠ some "NGProcessor" then
      fcpNG rest (some n) (some "compressor") (some i)
    else fcpNG rest (some n) (some n.nodeType) (some i)

/-- The `OilRefPipe` / `OilCrudePipe` scan (the two cases of the source
are textually identical). -/
def fcpOil : List (Nat × Node) → Option Node → Option String → Option Nat →
    Option Node × Option Nat
  | [], pN, _, pI => (pN, pI)
  | (i, n) :: rest, pN, pT, pI =>
    if n.nodeType = "OilPort" then (some n, some i)
    else if n.nodeType = "OilTerminal" then
      fcpOil rest (some n) (some "OilTerminal") (some i)
    else if n.nodeType = "OilRefinery" ∧ pT ≠ some "OilTerminal" then
      fcpOil rest (some n) (some "OilRefinery") (some i)
    else fcpOil rest pN pT pI

/-- The `CoalRailroad` scan. -/
def fcpCoal : List (Nat × Node) → Option Node → Option String → Option Nat →
    Option Node × Option Nat
  | [], pN, _, pI => (pN, pI)
  | (i, n) :: rest, pN, pT, pI =>
    if n.nodeType = "CoalDock" then (some n, some i)
    else if n.nodeType = "CoalSource" then
      fcpCoal rest (some n) (some "CoalSource") (some i)
    else fcpCoal rest pN pT pI

/-- `self.nodes[nodeIdxs]` paired with the indices (the scans return
both the primary node and its index). -/
def pairsOf (nodes : List Node) (idxs : List Nat) : List (Nat × Node) :=
  idxs.map (fun i => (i, nodes.getD i defNode))

/-- Boolean node-type test on an (index, node) pair. -/
def typeIs (t : String) : Nat × Node → Bool :=
  fun p => decide (p.2.nodeType = t)

/-- `findClusterPrimary(lineType, nodeIdxs)`: dispatch on the line type
string and scan `self.nodes[nodeIdxs]`. -/
def findClusterPrimary (nodes : List Node) (lineType : String)
    (nodeIdxs : List Nat) : Option Node × Option Nat :=
  let pairs := pairsOf nodes nodeIdxs
  if lineType = "ElecLine" then fcpElec pairs none none none
  else if lineType = "NGPipe" then fcpNG pairs none none none
  else if lineType = "OilRefPipe" then fcpOil pairs none none none
  else if lineType = "OilCrudePipe" ∨ lineType = "oilCPipe" ∨ lineType = "oilCrudePipe" then
    fcpOil pairs none none none
  else if lineType = "CoalRailroad" then fcpCoal pairs none none none
  else (none, none)  -- `print('New line to handle: ...')`

/-- The per-endpoint primary selection of `setPipeODNames2` (lines
1102-1114): with more than one member buffer call `findClusterPrimary`,
with exactly one member buffer take it unconditionally (`verts[nodeIdx][0]`;
an empty member set would raise `IndexError` there, embedded as
`(none, none)`). -/
def selectClusterPrimary (nodes : List Node) (clusters : List (Option Nat))
    (resourceIdx : List Nat) (L2 : Nat) (lineType : String) (c : Option Nat) :
    Option Node × Option Nat :=
  let found := positionsOf clusters c
  let resources := (found.map (fun i => resourceIdx.getD i 0)).filter
    (fun r => decide (L2 ≤ r))
  if 1 < resources.length then
    findClusterPrimary nodes lineType (resources.map (fun r => r - L2))
  else
    match resources with
    | [r] => (some (nodes.getD (r - L2) defNode), none)
    | _ => (none, none)

/-! ### C6 — `linkClusterBuffers` (`AMES.py` lines 1149-1237)

Like `updateTransporters`, the builder branches are guarded (a connector
object is built only when the shared refinement set is nonempty) but the
mutation/append block (lines 1223-1236) runs unconditionally for every
non-primary member buffer: with nothing freshly built it mutates and
re-appends the previous iteration's connector (or raises `NameError`).
The same store/reference model is used. -/

/-- Accumulator of the `linkClusterBuffers` loops. -/
structure LCAcc where
  transmissionCount : Nat
  NGCount : Nat
  oilRefCount : Nat
  oilCrudeCount : Nat
  railCount : Nat
  store : List Line
  outIds : List Nat
deriving DecidableEq, Repr

/-- The connector builder branches (lines 1172-1222).  For `ElecLine`
the guard is membership of the fixed electric refinement in the
*current* node's refinements (the primary's refinements are ignored and
the connector carries the constant singleton); for every other handled
line type the connector carries the intersection of the primary's and
the current node's refinements and is built only when that intersection
is nonempty. -/
def lcBuild (primaryNode currentNode : Node) (lineType : String) (acc : LCAcc) :
    Option Line × LCAcc :=
  if lineType = "ElecLine" then
    if currentNode.refinement.contains "electric power at 132kV" then
      let n := acc.transmissionCount + 1
      (some { lineName := "Transmission Line Connector " ++ toString n,
              refinement := ["electric power at 132kV"],
              fuelType := ["electric power at 132kV"],
              attrib_ref := ["electric power at 132kV"],
              lineKind := "ElecLine" },
       { acc with transmissionCount := n })
    else (none, acc)
  else if lineType = "NGPipe" then
    let sharedRef := listInter primaryNode.refinement currentNode.refinement
    if 0 < sharedRef.length then
      let n := acc.NGCount + 1
      (some { lineName := "NG Pipeline Connector " ++ toString n,
              refinement := sharedRef, fuelType := sharedRef,
              attrib_ref := sharedRef, lineKind := "NGPipe" },
       { acc with NGCount := n })
    else (none, acc)
  else if lineType = "OilRefPipe" then
    let sharedRef := listInter primaryNode.refinement currentNode.refinement
    if 0 < sharedRef.length then
      let n := acc.oilRefCount + 1
      (some { lineName := "Refined Oil Pipeline Connector " ++ toString n,
              refinement := sharedRef, fuelType := sharedRef,
              attrib_ref := sharedRef, lineKind := "OilRefPipe" },
       { acc with oilRefCount := n })
    else (none, acc)
  else if lineType = "OilCrudePipe" ∨ lineType = "oilCrudePipe" then
    let sharedRef := listInter primaryNode.refinement currentNode.refinement
    if 0 < sharedRef.length then
      let n := acc.oilCrudeCount + 1
      (some { lineName := "Crude Oil Pipeline Connector " ++ toString n,
              refinement := sharedRef, fuelType := sharedRef,
              attrib_ref := sharedRef, lineKind := "OilCrudePipe" },
       { acc with oilCrudeCount := n })
    else (none, acc)
  else if lineType = "CoalRailroad" then
    let sharedRef := listInter primaryNode.refinement currentNode.refinement
    if 0 < sharedRef.length then
      let n := acc.railCount + 1
      (some { lineName := "Coal Railroad Connector " ++ toString n,
              refinement := sharedRef, fuelType := sharedRef,
              attrib_ref := sharedRef, lineKind := "CoalRailroad" },
       { acc with railCount := n })
    else (none, acc)
  else (none, acc)  -- `print('line type not handled...')` and fall through

/-- One inner iteration of `linkClusterBuffers` (lines 1168-1236) for
the member entry `k2` of the radialized cluster:  skip the primary;
otherwise optionally build a connector, then unconditionally mutate and
append the most recently built object. -/
def lcStep (L2 : Nat) (nodes : List Node) (primaryNodeIdx : Nat)
    (primaryNode : Node) (lineType : String) (cluster : Option Nat)
    (acc : LCAcc) (k2 : Nat) : Except String LCAcc :=
  let nodeIdx := k2 - L2
  if primaryNodeIdx = nodeIdx then Except.ok acc
  else
    let currentNode := nodes.getD nodeIdx defNode
    let ba := lcBuild primaryNode currentNode lineType acc
    let store1 := match ba.1 with
      | some nl => ba.2.store ++ [nl]
      | none => ba.2.store
    if store1 = [] then Except.error "NameError: new_instance is not defined"
    else
      let id := store1.length - 1
      let obj := store1.getD id defLine
      let obj' := { obj with status := "true",
                             clust_origin := cluster, clust_dest := cluster,
                             fBus := .name primaryNode.nodeName,
                             tBus := .name currentNode.nodeName,
                             attrib_origin := .name primaryNode.nodeName,
                             attrib_dest := .name currentNode.nodeName,
                             controller := unionInto
                               (unionInto obj.controller primaryNode.controller)
                               currentNode.controller }
      Except.ok { ba.2 with store := store1.set id obj',
                            outIds := ba.2.outIds ++ [id] }

/-- One outer iteration of `linkClusterBuffers` for a
`clusterRadialCenter` entry `(primaryNodeIdx, (lineType, cluster))`. -/
def lcCluster (st : AState) (acc : LCAcc) (entry : Nat × String × Option Nat) :
    Except String LCAcc :=
  let primaryNodeIdx := entry.1
  let lineType := entry.2.1
  let cluster := entry.2.2
  let primaryNode := st.nodes.getD primaryNodeIdx defNode
  let clusterResources := ((positionsOf st.clusters cluster).map
    (fun i => st.resourceIdx.getD i 0)).filter
      (fun r => decide (st.lines.length * 2 ≤ r))
  clusterResources.foldlM
    (lcStep (st.lines.length * 2) st.nodes primaryNodeIdx primaryNode lineType cluster)
    acc

/-- `linkClusterBuffers`: the transporter list after appending the
emitted connectors (`clusterRadialCenter` is the `dict` in key-insertion
order). -/
def linkClusterBuffers (st : AState)
    (clusterRadialCenter : List (Nat × String × Option Nat)) :
    Except String (List Line) :=
  (clusterRadialCenter.foldlM (lcCluster st) ⟨0, 0, 0, 0, 0, [], []⟩).map
    (fun acc => st.lines ++ acc.outIds.map (fun i => acc.store.getD i defLine))

/-! ### C8 — `reviseOil` (`AMES.py` lines 1441-1534) -/

/-- Result of `reviseOil`: the transporter list (with the rescue pipes
appended) and the still-stranded plant indices. -/
structure OilResult where
  lines : List Line
  stillIsoNode : List Nat
deriving DecidableEq, Repr

/-- One iteration of the rescue loop (lines 1496-1533) for the isolated
plant at node index `plantIdx`.  The source's emptiness test `if
any(found)` applies Python `any` to an array of *indices*: it is `False`
both for no in-range neighbor and when the only in-range neighbor is
index `0`; this is embedded verbatim. -/
def oilStep (nodes : List Node) (oilOtherIdxs : List Nat)
    (oilRefPipeN : Option Nat) (acc : List Line × List Nat × Nat)
    (plantIdx : Nat) : List Line × List Nat × Nat :=
  let plant := nodes.getD plantIdx defNode
  let odist := fun j =>
    let other := nodes.getD (oilOtherIdxs.getD j 0) defNode
    sqDist plant.gpsX plant.gpsY other.gpsX other.gpsY
  let found := (List.range oilOtherIdxs.length).filter
    (fun j => decide (odist j ≤ (eps3 * 4) ^ 2))
  if found.any (fun j => j != 0) then
    let jmin := argminFirst odist found
    let closest := nodes.getD (oilOtherIdxs.getD jmin 0) defNode
    let n := acc.2.2 + 1
    let nl : Line :=
      { lineName := "OilR Pipeline " ++ toString (oilRefPipeN.getD 0 + n),
        refinement := ["processed oil"], fuelType := ["processed oil"],
        attrib_ref := ["processed oil"], lineKind := "oilRPipe",
        fBus := .name closest.nodeName, tBus := .name plant.nodeName,
        fBus_gps := (closest.gpsX, closest.gpsY), tBus_gps := (plant.gpsX, plant.gpsY),
        status := "true",
        clustOriginList := closest.cluster, clustDestList := plant.cluster,
        attrib_origin := .name closest.nodeName, attrib_dest := .name plant.nodeName,
        controller := unionInto (unionInto [] closest.controller) plant.controller }
    (acc.1 ++ [nl], acc.2.1, n)
  else
    (acc.1, acc.2.1 ++ [plantIdx], acc.2.2)

/-- `reviseOil`: find the controllable/stochastic generators burning
processed oil whose name occurs in no processed-oil transporter endpoint
(a Python substring test), and try to connect each to the nearest oil
terminal / port / independent buffer within `4 * eps3`. -/
def reviseOil (nodes : List Node) (lines : List Line) (oilRefPipeN : Option Nat) :
    OilResult :=
  let oilPlantIdxs := (List.range nodes.length).filter (fun k =>
    ((nodes.getD k defNode).nodeType == "GenC" || (nodes.getD k defNode).nodeType == "GenS")
      && (nodes.getD k defNode).fuelType.contains "processed oil")
  let oilOtherIdxs := (List.range nodes.length).filter (fun k =>
    !((nodes.getD k defNode).nodeType == "GenC" || (nodes.getD k defNode).nodeType == "GenS")
      && ((nodes.getD k defNode).nodeType == "OilIndBuffer"
        || (nodes.getD k defNode).nodeType == "OilPort"
        || (nodes.getD k defNode).nodeType == "OilTerminal"))
  let processedOilLines := (List.range lines.length).filter
    (fun j => (lines.getD j defLine).refinement.contains "processed oil")
  let isoIdxs := oilPlantIdxs.filter (fun k =>
    !(processedOilLines.any (fun j =>
      busContains (lines.getD j defLine).fBus (nodes.getD k defNode).nodeName
        || busContains (lines.getD j defLine).tBus (nodes.getD k defNode).nodeName)))
  let res := isoIdxs.foldl (oilStep nodes oilOtherIdxs oilRefPipeN) ([], [], 0)
  ⟨lines ++ res.1, res.2.1⟩

/-! ### Statement vocabulary for the remaining claims -/

/-- Uniform translation of a point table by the vector `v` (grid units).
Rows and columns are untouched. -/
def translate (v : ℤ × ℤ) (e : Entry) : Entry :=
  { e with x := e.x + v.1, y := e.y + v.2 }

/-- Invariant (I3): no transporter is a self-loop by cluster ids. -/
def selfLoopFree (lines : List Line) : Prop :=
  ∀ l ∈ lines, l.clust_origin ≠ l.clust_dest

/-- The positional contract (I1) on the unified point table: one entry
per point-row in row order — entry position `k < 2·|lines|` holds
point-row `k` (endpoint `k % 2` of transporter `k / 2`), and the entries
after them are buffer rows.  This is the shape `reviseCoords` receives
from the pipeline (each line endpoint owns exactly one stored entry). -/
def alignedState (st : AState) : Prop :=
  st.clusters.length = st.resourceIdx.length
  ∧ 2 * st.lines.length ≤ st.resourceIdx.length
  ∧ (∀ k, k < 2 * st.lines.length → st.resourceIdx.getD k 0 = k)
  ∧ (∀ k, 2 * st.lines.length ≤ k → k < st.resourceIdx.length →
      2 * st.lines.length ≤ st.resourceIdx.getD k 0)

/-! ## Concrete inputs for the failing-input and counterexample theorems -/

/-- C1 failing input, endpoint entries: row 0 carries the only column-0
endpoint entry — which is entry number 0 — and row 1 a column-1 entry far
away. -/
def c1ptsOD : List Entry := [⟨0, 0, 0, 0⟩, ⟨1, 1, 50000000, 50000000⟩]

/-- C1 failing input, buffer entry: a column-0 buffer 0.01 degrees
(100000 grid units) from the row-0 endpoint (inside `eps2`, outside
`eps1`). -/
def c1ptsB : List Entry := [⟨2, 0, 0, 100000⟩]

/-- C2 counterexample: six endpoint rows in column 0.  Entries 3 and 4
end up in clusters 1 and 0 respectively, and entry 5 is exactly 0.001
degrees (10000 grid units) from both. -/
def c2ptsOD : List Entry :=
  [⟨0, 0, 10000, 14000⟩, ⟨1, 0, -10000, 14000⟩, ⟨2, 0, 10000000, 10000000⟩,
   ⟨3, 0, -10000, 0⟩, ⟨4, 0, 10000, 0⟩, ⟨5, 0, 0, 0⟩]

/-- C3 failing input: one electric transporter whose two endpoints sit in
two singleton clusters; no buffers anywhere. -/
def c3st : AState :=
  { lines := [{ lineName := "L0", lineKind := "ElecLine",
                refinement := ["electric power at 132kV"] }],
    nodes := [], clusters := [some 0, some 1], resourceIdx := [0, 1] }

/-- C4 counterexample input: cluster 7 holds a primary and one other
buffer sharing a refinement, so the namer emits one radial connector. -/
def c4st : AState :=
  { lines := [],
    nodes := [{ nodeType := "NGReceiptDelivery", nodeName := "P", refinement := ["raw gas"] },
              { nodeType := "NGStorage", nodeName := "B1", refinement := ["raw gas"] }],
    clusters := [some 7, some 7], resourceIdx := [0, 1] }

/-- A one-transporter state whose two endpoints sit in distinct
singleton clusters: `joinLineSegs` advances over it and returns it
unchanged. -/
def c4jlsSt : AState :=
  { lines := [{ lineName := "Seg", clust_origin := some 0, clust_dest := some 1 }],
    nodes := [], clusters := [some 0, some 1], resourceIdx := [0, 1] }

/-- C6 failing input: cluster 5 holds the primary `P` (raw gas), a buffer
`B1` sharing `raw gas`, and a buffer `B2` sharing nothing with `P`. -/
def c6st : AState :=
  { lines := [],
    nodes := [{ nodeType := "NGReceiptDelivery", nodeName := "P", refinement := ["raw gas"] },
              { nodeType := "NGStorage", nodeName := "B1", refinement := ["raw gas"] },
              { nodeType := "NGStorage", nodeName := "B2", refinement := ["solar"] }],
    clusters := [some 5, some 5, some 5], resourceIdx := [0, 1, 2] }

/-- C7 failing input (second part): point entries for two queue entries,
the first with a `coal` column, the second with a `solar` column. -/
def c7pts : List Entry := [⟨0, 0, 1, 2⟩, ⟨1, 0, 3, 4⟩, ⟨2, 1, 5, 6⟩, ⟨3, 1, 7, 8⟩]

/-- C8 failing input: a controllable generator burning processed oil. -/
def c8G : Node := { nodeType := "GenC", nodeName := "G1", fuelType := ["processed oil"],
                    gpsX := 0, gpsY := 0, controller := ["X"] }

/-- C8 failing input: an oil terminal 0.1 degrees (1000000 grid units)
from the generator — well inside the `4 * eps3` rescue radius — and the
*first* (index 0) member of the neighbor array. -/
def c8T : Node := { nodeType := "OilTerminal", nodeName := "T1", gpsX := 1000000, gpsY := 0 }

/-- C5 counterexample: an NG processor discovered before an arbitrary
(`any`-class) buffer. -/
def c5Proc : Node := { nodeType := "NGProcessor", nodeName := "Proc" }

/-- C5 counterexample: the `any`-class buffer discovered second. -/
def c5Stor : Node := { nodeType := "NGStorage", nodeName := "Stor" }

/-! ## List helper lemmas -/

theorem getD_set_self {α : Type} (l : List α) (i : Nat) (v d : α) (h : i < l.length) :
    (l.set i v).getD i d = v := by
  induction l generalizing i with
  | nil => simp at h
  | cons a t ih =>
    cases i with
    | zero => simp
    | succ j => simpa using ih j (by simpa using h)

theorem getD_set_ne {α : Type} (l : List α) (i j : Nat) (v d : α) (h : i ≠ j) :
    (l.set i v).getD j d = l.getD j d := by
  induction l generalizing i j with
  | nil => simp
  | cons a t ih =>
    cases i with
    | zero =>
      cases j with
      | zero => exact absurd rfl h
      | succ j' => simp
    | succ i' =>
      cases j with
      | zero => simp
      | succ j' => simpa using ih i' j' (by omega)

theorem length_setAll {α : Type} (l : List α) (idxs : List Nat) (v : α) :
    (setAll l idxs v).length = l.length := by
  induction idxs generalizing l with
  | nil => rfl
  | cons i t ih => simpa [setAll, List.foldl_cons] using (ih (l.set i v)).trans (by simp)

theorem getD_setAll_not_mem {α : Type} (l : List α) (idxs : List Nat) (v d : α)
    (j : Nat) (h : j ∉ idxs) : (setAll l idxs v).getD j d = l.getD j d := by
  induction idxs generalizing l with
  | nil => rfl
  | cons i t ih =>
    have hij : i ≠ j := fun e => h (e ▸ List.mem_cons_self i t)
    have ht : j ∉ t := fun e => h (List.mem_cons_of_mem _ e)
    calc (setAll l (i :: t) v).getD j d
        = (setAll (l.set i v) t v).getD j d := rfl
      _ = (l.set i v).getD j d := ih (l.set i v) ht
      _ = l.getD j d := getD_set_ne l i j v d hij

theorem getD_setAll_mem {α : Type} (l : List α) (idxs : List Nat) (v d : α)
    (j : Nat) (hj : j ∈ idxs) (hlen : j < l.length) :
    (setAll l idxs v).getD j d = v := by
  induction idxs generalizing l with
  | nil => simp at hj
  | cons i t ih =>
    by_cases hjt : j ∈ t
    · exact ih (l.set i v) hjt (by simpa using hlen)
    · have hij : i = j := by
        rcases List.mem_cons.mp hj with h | h
        · exact h.symm
        · exact absurd h hjt
      calc (setAll l (i :: t) v).getD j d
          = (setAll (l.set i v) t v).getD j d := rfl
        _ = (l.set i v).getD j d := getD_setAll_not_mem _ t v d j hjt
        _ = v := hij ▸ getD_set_self l i v d (hij ▸ hlen)

theorem getD_eraseIdx {α : Type} (l : List α) (k j : Nat) (d : α) :
    (l.eraseIdx k).getD j d = if j < k then l.getD j d else l.getD (j + 1) d := by
  induction l generalizing k j with
  | nil => simp [List.eraseIdx]
  | cons a t ih =>
    cases k with
    | zero => simp [List.eraseIdx]
    | succ k' =>
      cases j with
      | zero => simp [List.eraseIdx]
      | succ j' =>
        simpa [List.eraseIdx, Nat.succ_lt_succ_iff] using ih k' j'

theorem getD_shiftFromBy (l : List Nat) (s amt j : Nat) :
    (shiftFromBy l s amt).getD j 0
      = if j < s then l.getD j 0 else l.getD j 0 - amt := by
  induction l generalizing s j with
  | nil => simp [shiftFromBy]
  | cons a t ih =>
    cases s with
    | zero =>
      cases j with
      | zero => simp [shiftFromBy]
      | succ j' => simpa [shiftFromBy] using ih 0 j'
    | succ s' =>
      cases j with
      | zero => simp [shiftFromBy]
      | succ j' =>
        simpa [shiftFromBy, Nat.succ_lt_succ_iff] using ih s' j'

/-! ## Fold congruence and `argminFirst` lemmas -/

theorem foldl_congr_mem {α β : Type} (l : List α) (f g : β → α → β) (b : β)
    (h : ∀ b' x, x ∈ l → f b' x = g b' x) : l.foldl f b = l.foldl g b := by
  induction l generalizing b with
  | nil => rfl
  | cons a t ih =>
    simp only [List.foldl_cons]
    rw [h b a (List.mem_cons_self _ _)]
    exact ih _ (fun b' x hx => h b' x (List.mem_cons_of_mem _ hx))

theorem foldl_min_congr (f g : Nat → ℤ) (l : List Nat) (b : Nat)
    (hb : f b = g b) (h : ∀ j ∈ l, f j = g j) :
    l.foldl (fun b j => if f j < f b then j else b) b
      = l.foldl (fun b j => if g j < g b then j else b) b := by
  induction l generalizing b with
  | nil => rfl
  | cons a t ih =>
    simp only [List.foldl_cons]
    have ha := h a (List.mem_cons_self _ _)
    rw [ha, hb]
    by_cases hlt : g a < g b
    · rw [if_pos hlt]
      exact ih a ha (fun j hj => h j (List.mem_cons_of_mem _ hj))
    · rw [if_neg hlt]
      exact ih b hb (fun j hj => h j (List.mem_cons_of_mem _ hj))

theorem argminFirst_congr (f g : Nat → ℤ) (l : List Nat)
    (h : ∀ j ∈ l, f j = g j) : argminFirst f l = argminFirst g l := by
  cases l with
  | nil => rfl
  | cons i rest =>
    simp only [argminFirst]
    exact foldl_min_congr f g rest i (h i (List.mem_cons_self _ _))
      (fun j hj => h j (List.mem_cons_of_mem _ hj))

theorem foldl_min_mem (f : Nat → ℤ) (l : List Nat) (b : Nat) :
    l.foldl (fun b j => if f j < f b then j else b) b = b
      ∨ l.foldl (fun b j => if f j < f b then j else b) b ∈ l := by
  induction l generalizing b with
  | nil => exact Or.inl rfl
  | cons a t ih =>
    simp only [List.foldl_cons]
    by_cases hlt : f a < f b
    · rw [if_pos hlt]
      rcases ih a with h | h
      · exact Or.inr (by rw [h]; exact List.mem_cons_self _ _)
      · exact Or.inr (List.mem_cons_of_mem _ h)
    · rw [if_neg hlt]
      rcases ih b with h | h
      · exact Or.inl h
      · exact Or.inr (List.mem_cons_of_mem _ h)

theorem argminFirst_mem (f : Nat → ℤ) (l : List Nat) (hl : l ≠ []) :
    argminFirst f l ∈ l := by
  cases l with
  | nil => exact absurd rfl hl
  | cons i rest =>
    simp only [argminFirst]
    rcases foldl_min_mem f rest i with h | h
    · rw [h]; exact List.mem_cons_self _ _
    · exact List.mem_cons_of_mem _ h

theorem foldl_min_spec (f : Nat → ℤ) (l : List Nat) :
    ∀ b : Nat,
      (l.foldl (fun b j => if f j < f b then j else b) b = b ∧ ∀ j ∈ l, f b ≤ f j)
      ∨ (∃ l₁ l₂, l = l₁ ++ (l.foldl (fun b j => if f j < f b then j else b) b) :: l₂
          ∧ f (l.foldl (fun b j => if f j < f b then j else b) b) < f b
          ∧ (∀ j ∈ l₁, f (l.foldl (fun b j => if f j < f b then j else b) b) < f j)
          ∧ (∀ j ∈ l₂, f (l.foldl (fun b j => if f j < f b then j else b) b) ≤ f j)) := by
  induction l with
  | nil => intro b; exact Or.inl ⟨rfl, by simp⟩
  | cons a t ih =>
    intro b
    simp only [List.foldl_cons]
    by_cases hlt : f a < f b
    · rw [if_pos hlt]
      rcases ih a with ⟨he, hle⟩ | ⟨l₁, l₂, hdec, hfa, h1, h2⟩
      · rw [he]
        exact Or.inr ⟨[], t, by simp, hlt, by simp, hle⟩
      · refine Or.inr ⟨a :: l₁, l₂, by rw [List.cons_append, ← hdec], lt_trans hfa hlt, ?_, h2⟩
        intro j hj
        rcases List.mem_cons.mp hj with rfl | hj
        · exact hfa
        · exact h1 j hj
    · rw [if_neg hlt]
      rcases ih b with ⟨he, hle⟩ | ⟨l₁, l₂, hdec, hfb, h1, h2⟩
      · rw [he]
        refine Or.inl ⟨rfl, ?_⟩
        intro j hj
        rcases List.mem_cons.mp hj with rfl | hj
        · exact le_of_not_lt hlt
        · exact hle j hj
      · refine Or.inr ⟨a :: l₁, l₂, by rw [List.cons_append, ← hdec], hfb, ?_, h2⟩
        intro j hj
        rcases List.mem_cons.mp hj with rfl | hj
        · exact lt_of_lt_of_le hfb (le_of_not_lt hlt)
        · exact h1 j hj

/-- `np.argmin` specification: on a nonempty index list the result splits
the list into a strict-greater prefix and a greater-or-equal suffix — it
is the first index attaining the minimum. -/
theorem argminFirst_spec (f : Nat → ℤ) (i : Nat) (rest : List Nat) :
    ∃ l₁ l₂, i :: rest = l₁ ++ argminFirst f (i :: rest) :: l₂
      ∧ (∀ j ∈ l₁, f (argminFirst f (i :: rest)) < f j)
      ∧ (∀ j ∈ l₂, f (argminFirst f (i :: rest)) ≤ f j) := by
  simp only [argminFirst]
  rcases foldl_min_spec f rest i with ⟨he, hle⟩ | ⟨l₁, l₂, hdec, hfb, h1, h2⟩
  · rw [he]
    exact ⟨[], rest, by simp, by simp, hle⟩
  · refine ⟨i :: l₁, l₂, by rw [List.cons_append, ← hdec], ?_, h2⟩
    intro j hj
    rcases List.mem_cons.mp hj with rfl | hj
    · exact hfb
    · exact h1 j hj

/-! ## Translation invariance of the clusterer (claim C9) -/

theorem getD_map_translate (v : ℤ × ℤ) (l : List Entry) (i : Nat) :
    (l.map (translate v)).getD i dEntry
      = if i < l.length then translate v (l.getD i dEntry) else dEntry := by
  induction l generalizing i with
  | nil => simp
  | cons a t ih =>
    cases i with
    | zero => simp
    | succ j => simpa [Nat.succ_lt_succ_iff] using ih j

theorem translate_col (v : ℤ × ℤ) (e : Entry) : (translate v e).col = e.col := rfl

theorem translate_row (v : ℤ × ℤ) (e : Entry) : (translate v e).row = e.row := rfl

theorem dist2_translate (v : ℤ × ℤ) (a b : Entry) :
    dist2 (translate v a) (translate v b) = dist2 a b := by
  simp only [dist2, translate, sqDist]
  ring

theorem colIdx_map (v : ℤ × ℤ) (l : List Entry) (c : Nat) :
    colIdx (l.map (translate v)) c = colIdx l c := by
  simp only [colIdx, List.length_map]
  apply List.filter_congr
  intro i hi
  have hb : i < l.length := List.mem_range.mp hi
  rw [getD_map_translate, if_pos hb, translate_col]

theorem rowIdx_map (v : ℤ × ℤ) (l : List Entry) (r : Nat) :
    rowIdx (l.map (translate v)) r = rowIdx l r := by
  simp only [rowIdx, List.length_map]
  apply List.filter_congr
  intro i hi
  have hb : i < l.length := List.mem_range.mp hi
  rw [getD_map_translate, if_pos hb, translate_row]

theorem colIdx_mem_lt (l : List Entry) (c i : Nat) (h : i ∈ colIdx l c) :
    i < l.length := by
  have := List.mem_filter.mp h
  exact List.mem_range.mp this.1

theorem rowIdx_mem_lt (l : List Entry) (r i : Nat) (h : i ∈ rowIdx l r) :
    i < l.length := by
  have := List.mem_filter.mp h
  exact List.mem_range.mp this.1

theorem innerStep_map (v : ℤ × ℤ) (pts : List Entry) (st : SnapState) (k2 : Nat)
    (hk : k2 < pts.length) :
    innerStep (pts.map (translate v)) st k2 = innerStep pts st k2 := by
  have he2 : (pts.map (translate v)).getD k2 dEntry
      = translate v (pts.getD k2 dEntry) := by
    rw [getD_map_translate, if_pos hk]
  have hdist : ∀ i ∈ colIdx pts (pts.getD k2 dEntry).col,
      dist2 ((pts.map (translate v)).getD k2 dEntry)
          ((pts.map (translate v)).getD i dEntry)
        = dist2 (pts.getD k2 dEntry) (pts.getD i dEntry) := by
    intro i hi
    rw [he2, getD_map_translate, if_pos (colIdx_mem_lt pts _ i hi), dist2_translate]
  simp only [innerStep]
  rw [he2, translate_col, colIdx_map]
  have hfound : (colIdx pts (pts.getD k2 dEntry).col).filter
        (fun i => decide (dist2 (translate v (pts.getD k2 dEntry))
          ((pts.map (translate v)).getD i dEntry) ≤ eps1 ^ 2))
      = (colIdx pts (pts.getD k2 dEntry).col).filter
        (fun i => decide (dist2 (pts.getD k2 dEntry) (pts.getD i dEntry) ≤ eps1 ^ 2)) := by
    apply List.filter_congr
    intro i hi
    have := hdist i hi
    rw [he2] at this
    rw [this]
  rw [hfound]
  have hbest : argminFirst (fun i => dist2 (translate v (pts.getD k2 dEntry))
        ((pts.map (translate v)).getD i dEntry))
        (((colIdx pts (pts.getD k2 dEntry).col).filter
          (fun i => decide (dist2 (pts.getD k2 dEntry) (pts.getD i dEntry) ≤ eps1 ^ 2))).filter
            (fun i => (st.clusters.getD i none).isSome))
      = argminFirst (fun i => dist2 (pts.getD k2 dEntry) (pts.getD i dEntry))
        (((colIdx pts (pts.getD k2 dEntry).col).filter
          (fun i => decide (dist2 (pts.getD k2 dEntry) (pts.getD i dEntry) ≤ eps1 ^ 2))).filter
            (fun i => (st.clusters.getD i none).isSome)) := by
    apply argminFirst_congr
    intro j hj
    have hj1 := (List.mem_filter.mp hj).1
    have hj2 := (List.mem_filter.mp hj1).1
    have := hdist j hj2
    rw [he2] at this
    exact this
  rw [hbest]

theorem primaryStep_map (v : ℤ × ℤ) (ptsOD pts : List Entry) (st : SnapState) (k1 : Nat)
    (hlen : ptsOD.length ≤ pts.length) :
    primaryStep (ptsOD.map (translate v)) (pts.map (translate v)) st k1
      = primaryStep ptsOD pts st k1 := by
  simp only [primaryStep]
  rw [rowIdx_map]
  apply congrArg
  apply foldl_congr_mem
  intro b i hi
  exact innerStep_map v pts b i (lt_of_lt_of_le (rowIdx_mem_lt ptsOD k1 i hi) hlen)

theorem snapPrimary_map (v : ℤ × ℤ) (ptsOD pts : List Entry) (nRowsOD : Nat)
    (st : SnapState) (hlen : ptsOD.length ≤ pts.length) :
    snapPrimary (ptsOD.map (translate v)) (pts.map (translate v)) nRowsOD st
      = snapPrimary ptsOD pts nRowsOD st := by
  simp only [snapPrimary]
  apply foldl_congr_mem
  intro b k1 _
  exact primaryStep_map v ptsOD pts b k1 hlen

theorem secondaryStep_map (v : ℤ × ℤ) (ptsOD pts : List Entry) (st : SnapState) (k2 : Nat)
    (hk : k2 < pts.length) :
    secondaryStep (ptsOD.map (translate v)) (pts.map (translate v)) st k2
      = secondaryStep ptsOD pts st k2 := by
  have he : (pts.map (translate v)).getD k2 dEntry
      = translate v (pts.getD k2 dEntry) := by
    rw [getD_map_translate, if_pos hk]
  simp only [secondaryStep]
  rw [he, translate_col, colIdx_map]
  by_cases hany : ((colIdx ptsOD (pts.getD k2 dEntry).col).any (fun i => i != 0)) = true
  · have hcond : ¬ ¬ ((colIdx ptsOD (pts.getD k2 dEntry).col).any (fun i => i != 0) = true) := by
      simpa using hany
    rw [if_neg hcond, if_neg hcond]
    have hne : colIdx ptsOD (pts.getD k2 dEntry).col ≠ [] := by
      intro h0
      rw [h0] at hany
      simp [List.any] at hany
    have hdistOD : ∀ i ∈ colIdx ptsOD (pts.getD k2 dEntry).col,
        dist2 (translate v (pts.getD k2 dEntry))
            ((ptsOD.map (translate v)).getD i dEntry)
          = dist2 (pts.getD k2 dEntry) (ptsOD.getD i dEntry) := by
      intro i hi
      rw [getD_map_translate, if_pos (colIdx_mem_lt ptsOD _ i hi), dist2_translate]
    have hnear : argminFirst (fun i => dist2 (translate v (pts.getD k2 dEntry))
          ((ptsOD.map (translate v)).getD i dEntry))
          (colIdx ptsOD (pts.getD k2 dEntry).col)
        = argminFirst (fun i => dist2 (pts.getD k2 dEntry) (ptsOD.getD i dEntry))
          (colIdx ptsOD (pts.getD k2 dEntry).col) := by
      apply argminFirst_congr
      exact hdistOD
    rw [hnear, hdistOD _ (argminFirst_mem _ _ hne)]
  · have hcond : ¬ ((colIdx ptsOD (pts.getD k2 dEntry).col).any (fun i => i != 0) = true) := by
      simpa using hany
    rw [if_pos hcond, if_pos hcond]

theorem snapSecondary_map (v : ℤ × ℤ) (ptsOD pts : List Entry) (st : SnapState)
    (hlen : st.clusters.length ≤ pts.length) :
    snapSecondary (ptsOD.map (translate v)) (pts.map (translate v)) st
      = snapSecondary ptsOD pts st := by
  simp only [snapSecondary]
  apply foldl_congr_mem
  intro b k2 hk
  have hk1 : k2 < st.clusters.length :=
    List.mem_range.mp (List.mem_filter.mp hk).1
  exact secondaryStep_map v ptsOD pts b k2 (lt_of_lt_of_le hk1 hlen)

theorem assign_eq_setAll (cl : List (Option Nat)) (idxs : List Nat) (v : Option Nat) :
    assign cl idxs v = setAll cl idxs v := rfl

theorem innerStep_clusters_length (pts : List Entry) (st : SnapState) (k2 : Nat) :
    (innerStep pts st k2).clusters.length = st.clusters.length := by
  simp only [innerStep]
  split <;> simp [assign_eq_setAll, length_setAll]

theorem foldl_innerStep_clusters_length (pts : List Entry) (l : List Nat) :
    ∀ st : SnapState, (l.foldl (innerStep pts) st).clusters.length = st.clusters.length := by
  induction l with
  | nil => intro st; rfl
  | cons i t ih =>
    intro st
    simp only [List.foldl_cons]
    rw [ih (innerStep pts st i), innerStep_clusters_length]

theorem primaryStep_clusters_length (ptsOD pts : List Entry) (st : SnapState) (k1 : Nat) :
    (primaryStep ptsOD pts st k1).clusters.length = st.clusters.length := by
  simp only [primaryStep]
  split
  · rfl
  · exact foldl_innerStep_clusters_length pts _ st

theorem snapPrimary_clusters_length (ptsOD pts : List Entry) (nRowsOD : Nat) :
    ∀ st : SnapState,
      (snapPrimary ptsOD pts nRowsOD st).clusters.length = st.clusters.length := by
  simp only [snapPrimary]
  generalize List.range nRowsOD = l
  induction l with
  | nil => intro st; rfl
  | cons k t ih =>
    intro st
    simp only [List.foldl_cons]
    rw [ih (primaryStep ptsOD pts st k), primaryStep_clusters_length]

/-! ## Scan lemmas for `findClusterPrimary` (claim C5) -/

theorem reverse_find?_cons {α : Type} (p : α → Bool) (a : α) (l : List α) :
    (a :: l).reverse.find? p
      = (l.reverse.find? p).or (if p a then some a else none) := by
  have h : (a :: l).reverse = l.reverse ++ [a] := by simp
  rw [h, List.find?_append]
  congr 1
  cases h : p a <;> simp [List.find?, h]

theorem fcpElec_const (ps : List (Nat × Node)) :
    (∀ p ∈ ps, p.2.nodeType ≠ "LoadC" ∧ p.2.nodeType ≠ "LoadS"
      ∧ p.2.nodeType ≠ "GenC" ∧ p.2.nodeType ≠ "GenS") →
    ∀ pN pT pI, fcpElec ps pN pT pI = (pN, pI) := by
  induction ps with
  | nil => intro _ pN pT pI; rfl
  | cons a rest ih =>
    intro h pN pT pI
    obtain ⟨i, n⟩ := a
    obtain ⟨h1, h2, h3, h4⟩ := h (i, n) (List.mem_cons_self _ _)
    simp only [fcpElec]
    rw [if_neg h1, if_neg h2, if_neg (fun hc => h3 hc.1), if_neg (fun hc => h4 hc.1)]
    exact ih (fun p hp => h p (List.mem_cons_of_mem _ hp)) pN pT pI

theorem fcpElec_constLoadS (ps : List (Nat × Node)) :
    (∀ p ∈ ps, p.2.nodeType ≠ "LoadC" ∧ p.2.nodeType ≠ "LoadS") →
    ∀ pN pI, fcpElec ps pN (some "LoadS") pI = (pN, pI) := by
  induction ps with
  | nil => intro _ pN pI; rfl
  | cons a rest ih =>
    intro h pN pI
    obtain ⟨i, n⟩ := a
    obtain ⟨h1, h2⟩ := h (i, n) (List.mem_cons_self _ _)
    simp only [fcpElec]
    rw [if_neg h1, if_neg h2, if_neg (fun hc => hc.2 rfl), if_neg (fun hc => hc.2.1 rfl)]
    exact ih (fun p hp => h p (List.mem_cons_of_mem _ hp)) pN pI

theorem fcpElec_constGenC (ps : List (Nat × Node)) :
    (∀ p ∈ ps, p.2.nodeType ≠ "LoadC" ∧ p.2.nodeType ≠ "LoadS" ∧ p.2.nodeType ≠ "GenC") →
    ∀ pN pI, fcpElec ps pN (some "GenC") pI = (pN, pI) := by
  induction ps with
  | nil => intro _ pN pI; rfl
  | cons a rest ih =>
    intro h pN pI
    obtain ⟨i, n⟩ := a
    obtain ⟨h1, h2, h3⟩ := h (i, n) (List.mem_cons_self _ _)
    simp only [fcpElec]
    rw [if_neg h1, if_neg h2, if_neg (fun hc => h3 hc.1), if_neg (fun hc => hc.2.2 rfl)]
    exact ih (fun p hp => h p (List.mem_cons_of_mem _ hp)) pN pI

theorem fcpElec_cons_skip (i : Nat) (n : Node) (rest : List (Nat × Node))
    (pN : Option Node) (pT : Option String) (pI : Option Nat)
    (h : n.nodeType ≠ "LoadC") :
    ∃ pN' pT' pI', fcpElec ((i, n) :: rest) pN pT pI = fcpElec rest pN' pT' pI' := by
  simp only [fcpElec]
  rw [if_neg h]
  by_cases h2 : n.nodeType = "LoadS"
  · rw [if_pos h2]; exact ⟨_, _, _, rfl⟩
  · rw [if_neg h2]
    by_cases h3 : n.nodeType = "GenC" ∧ pT ≠ some "LoadS"
    · rw [if_pos h3]; exact ⟨_, _, _, rfl⟩
    · rw [if_neg h3]
      by_cases h4 : n.nodeType = "GenS" ∧ pT ≠ some "LoadS" ∧ pT ≠ some "GenC"
      · rw [if_pos h4]; exact ⟨_, _, _, rfl⟩
      · rw [if_neg h4]; exact ⟨_, _, _, rfl⟩

theorem fcpElec_top (ps : List (Nat × Node)) :
    ∀ q, ps.find? (typeIs "LoadC") = some q →
    ∀ pN pT pI, fcpElec ps pN pT pI = (some q.2, some q.1) := by
  induction ps with
  | nil => intro q hq; simp at hq
  | cons a rest ih =>
    intro q hq pN pT pI
    obtain ⟨i, n⟩ := a
    by_cases hn : n.nodeType = "LoadC"
    · have hb : typeIs "LoadC" (i, n) = true := by simp [typeIs, hn]
      rw [List.find?_cons_of_pos _ hb] at hq
      cases hq
      simp only [fcpElec]
      rw [if_pos hn]
    · have hb : ¬ typeIs "LoadC" (i, n) = true := by simp [typeIs, hn]
      rw [List.find?_cons_of_neg _ hb] at hq
      obtain ⟨pN', pT', pI', he⟩ := fcpElec_cons_skip i n rest pN pT pI hn
      rw [he]
      exact ih q hq pN' pT' pI'

theorem fcpElec_lastLoadS (ps : List (Nat × Node)) :
    ps.find? (typeIs "LoadC") = none →
    ∀ q, ps.reverse.find? (typeIs "LoadS") = some q →
    ∀ pN pT pI, fcpElec ps pN pT pI = (some q.2, some q.1) := by
  induction ps with
  | nil => intro _ q hq; simp at hq
  | cons a rest ih =>
    intro hC q hq pN pT pI
    obtain ⟨i, n⟩ := a
    have hall := List.find?_eq_none.mp hC
    have hn : n.nodeType ≠ "LoadC" := by
      have := hall (i, n) (List.mem_cons_self _ _); simpa [typeIs] using this
    have hCrest : rest.find? (typeIs "LoadC") = none :=
      List.find?_eq_none.mpr (fun x hx => hall x (List.mem_cons_of_mem _ hx))
    rw [reverse_find?_cons] at hq
    cases hrev : rest.reverse.find? (typeIs "LoadS") with
    | some q' =>
      rw [hrev] at hq
      have hq' : q' = q := by simpa using hq
      obtain ⟨pN', pT', pI', he⟩ := fcpElec_cons_skip i n rest pN pT pI hn
      rw [he]
      exact hq' ▸ ih hCrest q' hrev pN' pT' pI'
    | none =>
      rw [hrev] at hq
      by_cases hb : typeIs "LoadS" (i, n) = true
      · have hS : n.nodeType = "LoadS" := by simpa [typeIs] using hb
        have hqa : q = (i, n) := by
          rw [if_pos hb] at hq; simpa using hq.symm
        have hSrest : ∀ p ∈ rest, p.2.nodeType ≠ "LoadC" ∧ p.2.nodeType ≠ "LoadS" := by
          intro p hp
          refine ⟨fun hc => (hall p (List.mem_cons_of_mem _ hp)) (by simp [typeIs, hc]), ?_⟩
          intro hc
          have := List.find?_eq_none.mp hrev p (List.mem_reverse.mpr hp)
          exact this (by simp [typeIs, hc])
        subst hqa
        simp only [fcpElec]
        rw [if_neg hn, if_pos hS]
        exact fcpElec_constLoadS rest hSrest (some n) (some i)
      · rw [if_neg hb] at hq; simp at hq

theorem fcpElec_cons_skip2 (i : Nat) (n : Node) (rest : List (Nat × Node))
    (pN : Option Node) (pT : Option String) (pI : Option Nat)
    (h1 : n.nodeType ≠ "LoadC") (h2 : n.nodeType ≠ "LoadS")
    (hT : pT ≠ some "LoadS") :
    ∃ pN' pT' pI', pT' ≠ some "LoadS"
      ∧ fcpElec ((i, n) :: rest) pN pT pI = fcpElec rest pN' pT' pI' := by
  simp only [fcpElec]
  rw [if_neg h1, if_neg h2]
  by_cases h3 : n.nodeType = "GenC" ∧ pT ≠ some "LoadS"
  · rw [if_pos h3]; exact ⟨_, _, _, by simp, rfl⟩
  · rw [if_neg h3]
    by_cases h4 : n.nodeType = "GenS" ∧ pT ≠ some "LoadS" ∧ pT ≠ some "GenC"
    · rw [if_pos h4]; exact ⟨_, _, _, by simp, rfl⟩
    · rw [if_neg h4]; exact ⟨_, _, _, hT, rfl⟩

theorem fcpElec_cons_skip3 (i : Nat) (n : Node) (rest : List (Nat × Node))
    (pN : Option Node) (pT : Option String) (pI : Option Nat)
    (h1 : n.nodeType ≠ "LoadC") (h2 : n.nodeType ≠ "LoadS") (h3 : n.nodeType ≠ "GenC")
    (hT1 : pT ≠ some "LoadS") (hT2 : pT ≠ some "GenC") :
    ∃ pN' pT' pI', pT' ≠ some "LoadS" ∧ pT' ≠ some "GenC"
      ∧ fcpElec ((i, n) :: rest) pN pT pI = fcpElec rest pN' pT' pI' := by
  simp only [fcpElec]
  rw [if_neg h1, if_neg h2, if_neg (fun hc => h3 hc.1)]
  by_cases h4 : n.nodeType = "GenS" ∧ pT ≠ some "LoadS" ∧ pT ≠ some "GenC"
  · rw [if_pos h4]; exact ⟨_, _, _, by simp, by simp, rfl⟩
  · rw [if_neg h4]; exact ⟨_, _, _, hT1, hT2, rfl⟩

theorem fcpElec_lastGenC (ps : List (Nat × Node)) :
    ps.find? (typeIs "LoadC") = none →
    ps.find? (typeIs "LoadS") = none →
    ∀ q, ps.reverse.find? (typeIs "GenC") = some q →
    ∀ pN pT pI, pT ≠ some "LoadS" → fcpElec ps pN pT pI = (some q.2, some q.1) := by
  induction ps with
  | nil => intro _ _ q hq; simp at hq
  | cons a rest ih =>
    intro hC hS q hq pN pT pI hT
    obtain ⟨i, n⟩ := a
    have hallC := List.find?_eq_none.mp hC
    have hallS := List.find?_eq_none.mp hS
    have hnC : n.nodeType ≠ "LoadC" := by
      have := hallC (i, n) (List.mem_cons_self _ _); simpa [typeIs] using this
    have hnS : n.nodeType ≠ "LoadS" := by
      have := hallS (i, n) (List.mem_cons_self _ _); simpa [typeIs] using this
    have hCrest : rest.find? (typeIs "LoadC") = none :=
      List.find?_eq_none.mpr (fun x hx => hallC x (List.mem_cons_of_mem _ hx))
    have hSrest : rest.find? (typeIs "LoadS") = none :=
      List.find?_eq_none.mpr (fun x hx => hallS x (List.mem_cons_of_mem _ hx))
    rw [reverse_find?_cons] at hq
    cases hrev : rest.reverse.find? (typeIs "GenC") with
    | some q' =>
      rw [hrev] at hq
      have hq' : q' = q := by simpa using hq
      obtain ⟨pN', pT', pI', hT', he⟩ := fcpElec_cons_skip2 i n rest pN pT pI hnC hnS hT
      rw [he]
      exact hq' ▸ ih hCrest hSrest q' hrev pN' pT' pI' hT'
    | none =>
      rw [hrev] at hq
      by_cases hb : typeIs "GenC" (i, n) = true
      · have hG : n.nodeType = "GenC" := by simpa [typeIs] using hb
        have hqa : q = (i, n) := by
          rw [if_pos hb] at hq; simpa using hq.symm
        have hrest3 : ∀ p ∈ rest, p.2.nodeType ≠ "LoadC" ∧ p.2.nodeType ≠ "LoadS"
            ∧ p.2.nodeType ≠ "GenC" := by
          intro p hp
          refine ⟨fun hc => (hallC p (List.mem_cons_of_mem _ hp)) (by simp [typeIs, hc]),
                  fun hc => (hallS p (List.mem_cons_of_mem _ hp)) (by simp [typeIs, hc]),
                  fun hc => ?_⟩
          exact (List.find?_eq_none.mp hrev p (List.mem_reverse.mpr hp)) (by simp [typeIs, hc])
        subst hqa
        simp only [fcpElec]
        rw [if_neg hnC, if_neg hnS, if_pos ⟨hG, hT⟩]
        exact fcpElec_constGenC rest hrest3 (some n) (some i)
      · rw [if_neg hb] at hq; simp at hq

theorem fcpElec_lastGenS (ps : List (Nat × Node)) :
    ps.find? (typeIs "LoadC") = none →
    ps.find? (typeIs "LoadS") = none →
    ps.find? (typeIs "GenC") = none →
    ∀ q, ps.reverse.find? (typeIs "GenS") = some q →
    ∀ pN pT pI, pT ≠ some "LoadS" → pT ≠ some "GenC" →
      fcpElec ps pN pT pI = (some q.2, some q.1) := by
  induction ps with
  | nil => intro _ _ _ q hq; simp at hq
  | cons a rest ih =>
    intro hC hS hG q hq pN pT pI hT1 hT2
    obtain ⟨i, n⟩ := a
    have hallC := List.find?_eq_none.mp hC
    have hallS := List.find?_eq_none.mp hS
    have hallG := List.find?_eq_none.mp hG
    have hnC : n.nodeType ≠ "LoadC" := by
      have := hallC (i, n) (List.mem_cons_self _ _); simpa [typeIs] using this
    have hnS : n.nodeType ≠ "LoadS" := by
      have := hallS (i, n) (List.mem_cons_self _ _); simpa [typeIs] using this
    have hnG : n.nodeType ≠ "GenC" := by
      have := hallG (i, n) (List.mem_cons_self _ _); simpa [typeIs] using this
    have hCrest : rest.find? (typeIs "LoadC") = none :=
      List.find?_eq_none.mpr (fun x hx => hallC x (List.mem_cons_of_mem _ hx))
    have hSrest : rest.find? (typeIs "LoadS") = none :=
      List.find?_eq_none.mpr (fun x hx => hallS x (List.mem_cons_of_mem _ hx))
    have hGrest : rest.find? (typeIs "GenC") = none :=
      List.find?_eq_none.mpr (fun x hx => hallG x (List.mem_cons_of_mem _ hx))
    rw [reverse_find?_cons] at hq
    cases hrev : rest.reverse.find? (typeIs "GenS") with
    | some q' =>
      rw [hrev] at hq
      have hq' : q' = q := by simpa using hq
      obtain ⟨pN', pT', pI', hT1', hT2', he⟩ :=
        fcpElec_cons_skip3 i n rest pN pT pI hnC hnS hnG hT1 hT2
      rw [he]
      exact hq' ▸ ih hCrest hSrest hGrest q' hrev pN' pT' pI' hT1' hT2'
    | none =>
      rw [hrev] at hq
      by_cases hb : typeIs "GenS" (i, n) = true
      · have hGS : n.nodeType = "GenS" := by simpa [typeIs] using hb
        have hqa : q = (i, n) := by
          rw [if_pos hb] at hq; simpa using hq.symm
        have hrest4 : ∀ p ∈ rest, p.2.nodeType ≠ "LoadC" ∧ p.2.nodeType ≠ "LoadS"
            ∧ p.2.nodeType ≠ "GenC" ∧ p.2.nodeType ≠ "GenS" := by
          intro p hp
          refine ⟨fun hc => (hallC p (List.mem_cons_of_mem _ hp)) (by simp [typeIs, hc]),
                  fun hc => (hallS p (List.mem_cons_of_mem _ hp)) (by simp [typeIs, hc]),
                  fun hc => (hallG p (List.mem_cons_of_mem _ hp)) (by simp [typeIs, hc]),
                  fun hc => ?_⟩
          exact (List.find?_eq_none.mp hrev p (List.mem_reverse.mpr hp)) (by simp [typeIs, hc])
        subst hqa
        simp only [fcpElec]
        rw [if_neg hnC, if_neg hnS, if_neg (fun hc => hnG hc.1), if_pos ⟨hGS, hT1, hT2⟩]
        exact fcpElec_const rest hrest4 (some n) (some "GenS") (some i)
      · rw [if_neg hb] at hq; simp at hq

theorem fcpNG_cons_skip (i : Nat) (n : Node) (rest : List (Nat × Node))
    (pN : Option Node) (pT : Option String) (pI : Option Nat)
    (h : n.nodeType ≠ "NGReceiptDelivery") :
    ∃ pN' pT' pI', fcpNG ((i, n) :: rest) pN pT pI = fcpNG rest pN' pT' pI' := by
  simp only [fcpNG]
  rw [if_neg h]
  by_cases h2 : n.nodeType = "NGProcessor"
  · rw [if_pos h2]; exact ⟨_, _, _, rfl⟩
  · rw [if_neg h2]
    by_cases h3 : n.nodeType = "compressor" ∧ pT ≠ some "NGProcessor"
    · rw [if_pos h3]; exact ⟨_, _, _, rfl⟩
    · rw [if_neg h3]; exact ⟨_, _, _, rfl⟩

theorem fcpNG_top (ps : List (Nat × Node)) :
    ∀ q, ps.find? (typeIs "NGReceiptDelivery") = some q →
    ∀ pN pT pI, fcpNG ps pN pT pI = (some q.2, some q.1) := by
  induction ps with
  | nil => intro q hq; simp at hq
  | cons a rest ih =>
    intro q hq pN pT pI
    obtain ⟨i, n⟩ := a
    by_cases hn : n.nodeType = "NGReceiptDelivery"
    · have hb : typeIs "NGReceiptDelivery" (i, n) = true := by simp [typeIs, hn]
      rw [List.find?_cons_of_pos _ hb] at hq
      cases hq
      simp only [fcpNG]
      rw [if_pos hn]
    · have hb : ¬ typeIs "NGReceiptDelivery" (i, n) = true := by simp [typeIs, hn]
      rw [List.find?_cons_of_neg _ hb] at hq
      obtain ⟨pN', pT', pI', he⟩ := fcpNG_cons_skip i n rest pN pT pI hn
      rw [he]
      exact ih q hq pN' pT' pI'

theorem fcpNG_single (i : Nat) (n : Node) (pN : Option Node) (pT : Option String)
    (pI : Option Nat) (h : n.nodeType ≠ "NGReceiptDelivery") :
    fcpNG [(i, n)] pN pT pI = (some n, some i) := by
  simp only [fcpNG]
  rw [if_neg h]
  by_cases h2 : n.nodeType = "NGProcessor"
  · rw [if_pos h2]
  · rw [if_neg h2]
    by_cases h3 : n.nodeType = "compressor" ∧ pT ≠ some "NGProcessor"
    · rw [if_pos h3]
    · rw [if_neg h3]

theorem fcpNG_last (ps : List (Nat × Node)) :
    ps.find? (typeIs "NGReceiptDelivery") = none →
    ∀ q, ps.getLast? = some q →
    ∀ pN pT pI, fcpNG ps pN pT pI = (some q.2, some q.1) := by
  induction ps with
  | nil => intro _ q hq; simp at hq
  | cons a rest ih =>
    intro hR q hq pN pT pI
    obtain ⟨i, n⟩ := a
    have hallR := List.find?_eq_none.mp hR
    have hn : n.nodeType ≠ "NGReceiptDelivery" := by
      have := hallR (i, n) (List.mem_cons_self _ _); simpa [typeIs] using this
    cases rest with
    | nil =>
      have hqa : q = (i, n) := by simpa using hq.symm
      subst hqa
      exact fcpNG_single i n pN pT pI hn
    | cons b t =>
      have hq' : (b :: t).getLast? = some q := by
        rw [List.getLast?_cons_cons] at hq; exact hq
      have hRrest : (b :: t).find? (typeIs "NGReceiptDelivery") = none :=
        List.find?_eq_none.mpr (fun x hx => hallR x (List.mem_cons_of_mem _ hx))
      obtain ⟨pN', pT', pI', he⟩ := fcpNG_cons_skip i n (b :: t) pN pT pI hn
      rw [he]
      exact ih hRrest q hq' pN' pT' pI'

theorem fcpOil_const (ps : List (Nat × Node)) :
    (∀ p ∈ ps, p.2.nodeType ≠ "OilPort" ∧ p.2.nodeType ≠ "OilTerminal"
      ∧ p.2.nodeType ≠ "OilRefinery") →
    ∀ pN pT pI, fcpOil ps pN pT pI = (pN, pI) := by
  induction ps with
  | nil => intro _ pN pT pI; rfl
  | cons a rest ih =>
    intro h pN pT pI
    obtain ⟨i, n⟩ := a
    obtain ⟨h1, h2, h3⟩ := h (i, n) (List.mem_cons_self _ _)
    simp only [fcpOil]
    rw [if_neg h1, if_neg h2, if_neg (fun hc => h3 hc.1)]
    exact ih (fun p hp => h p (List.mem_cons_of_mem _ hp)) pN pT pI

theorem fcpOil_constTerminal (ps : List (Nat × Node)) :
    (∀ p ∈ ps, p.2.nodeType ≠ "OilPort" ∧ p.2.nodeType ≠ "OilTerminal") →
    ∀ pN pI, fcpOil ps pN (some "OilTerminal") pI = (pN, pI) := by
  induction ps with
  | nil => intro _ pN pI; rfl
  | cons a rest ih =>
    intro h pN pI
    obtain ⟨i, n⟩ := a
    obtain ⟨h1, h2⟩ := h (i, n) (List.mem_cons_self _ _)
    simp only [fcpOil]
    rw [if_neg h1, if_neg h2, if_neg (fun hc => hc.2 rfl)]
    exact ih (fun p hp => h p (List.mem_cons_of_mem _ hp)) pN pI

theorem fcpOil_cons_skip (i : Nat) (n : Node) (rest : List (Nat × Node))
    (pN : Option Node) (pT : Option String) (pI : Option Nat)
    (h : n.nodeType ≠ "OilPort") :
    ∃ pN' pT' pI', fcpOil ((i, n) :: rest) pN pT pI = fcpOil rest pN' pT' pI' := by
  simp only [fcpOil]
  rw [if_neg h]
  by_cases h2 : n.nodeType = "OilTerminal"
  · rw [if_pos h2]; exact ⟨_, _, _, rfl⟩
  · rw [if_neg h2]
    by_cases h3 : n.nodeType = "OilRefinery" ∧ pT ≠ some "OilTerminal"
    · rw [if_pos h3]; exact ⟨_, _, _, rfl⟩
    · rw [if_neg h3]; exact ⟨_, _, _, rfl⟩

theorem fcpOil_cons_skip2 (i : Nat) (n : Node) (rest : List (Nat × Node))
    (pN : Option Node) (pT : Option String) (pI : Option Nat)
    (h1 : n.nodeType ≠ "OilPort") (h2 : n.nodeType ≠ "OilTerminal")
    (hT : pT ≠ some "OilTerminal") :
    ∃ pN' pT' pI', pT' ≠ some "OilTerminal"
      ∧ fcpOil ((i, n) :: rest) pN pT pI = fcpOil rest pN' pT' pI' := by
  simp only [fcpOil]
  rw [if_neg h1, if_neg h2]
  by_cases h3 : n.nodeType = "OilRefinery" ∧ pT ≠ some "OilTerminal"
  · rw [if_pos h3]; exact ⟨_, _, _, by simp, rfl⟩
  · rw [if_neg h3]; exact ⟨_, _, _, hT, rfl⟩

theorem fcpOil_top (ps : List (Nat × Node)) :
    ∀ q, ps.find? (typeIs "OilPort") = some q →
    ∀ pN pT pI, fcpOil ps pN pT pI = (some q.2, some q.1) := by
  induction ps with
  | nil => intro q hq; simp at hq
  | cons a rest ih =>
    intro q hq pN pT pI
    obtain ⟨i, n⟩ := a
    by_cases hn : n.nodeType = "OilPort"
    · have hb : typeIs "OilPort" (i, n) = true := by simp [typeIs, hn]
      rw [List.find?_cons_of_pos _ hb] at hq
      cases hq
      simp only [fcpOil]
      rw [if_pos hn]
    · have hb : ¬ typeIs "OilPort" (i, n) = true := by simp [typeIs, hn]
      rw [List.find?_cons_of_neg _ hb] at hq
      obtain ⟨pN', pT', pI', he⟩ := fcpOil_cons_skip i n rest pN pT pI hn
      rw [he]
      exact ih q hq pN' pT' pI'

theorem fcpOil_lastTerminal (ps : List (Nat × Node)) :
    ps.find? (typeIs "OilPort") = none →
    ∀ q, ps.reverse.find? (typeIs "OilTerminal") = some q →
    ∀ pN pT pI, fcpOil ps pN pT pI = (some q.2, some q.1) := by
  induction ps with
  | nil => intro _ q hq; simp at hq
  | cons a rest ih =>
    intro hP q hq pN pT pI
    obtain ⟨i, n⟩ := a
    have hallP := List.find?_eq_none.mp hP
    have hnP : n.nodeType ≠ "OilPort" := by
      have := hallP (i, n) (List.mem_cons_self _ _); simpa [typeIs] using this
    have hPrest : rest.find? (typeIs "OilPort") = none :=
      List.find?_eq_none.mpr (fun x hx => hallP x (List.mem_cons_of_mem _ hx))
    rw [reverse_find?_cons] at hq
    cases hrev : rest.reverse.find? (typeIs "OilTerminal") with
    | some q' =>
      rw [hrev] at hq
      have hq' : q' = q := by simpa using hq
      obtain ⟨pN', pT', pI', he⟩ := fcpOil_cons_skip i n rest pN pT pI hnP
      rw [he]
      exact hq' ▸ ih hPrest q' hrev pN' pT' pI'
    | none =>
      rw [hrev] at hq
      by_cases hb : typeIs "OilTerminal" (i, n) = true
      · have hT : n.nodeType = "OilTerminal" := by simpa [typeIs] using hb
        have hqa : q = (i, n) := by
          rw [if_pos hb] at hq; simpa using hq.symm
        have hrest2 : ∀ p ∈ rest, p.2.nodeType ≠ "OilPort" ∧ p.2.nodeType ≠ "OilTerminal" := by
          intro p hp
          refine ⟨fun hc => (hallP p (List.mem_cons_of_mem _ hp)) (by simp [typeIs, hc]),
                  fun hc => ?_⟩
          exact (List.find?_eq_none.mp hrev p (List.mem_reverse.mpr hp)) (by simp [typeIs, hc])
        subst hqa
        simp only [fcpOil]
        rw [if_neg hnP, if_pos hT]
        exact fcpOil_constTerminal rest hrest2 (some n) (some i)
      · rw [if_neg hb] at hq; simp at hq

theorem fcpOil_lastRefinery (ps : List (Nat × Node)) :
    ps.find? (typeIs "OilPort") = none →
    ps.find? (typeIs "OilTerminal") = none →
    ∀ q, ps.reverse.find? (typeIs "OilRefinery") = some q →
    ∀ pN pT pI, pT ≠ some "OilTerminal" → fcpOil ps pN pT pI = (some q.2, some q.1) := by
  induction ps with
  | nil => intro _ _ q hq; simp at hq
  | cons a rest ih =>
    intro hP hT q hq pN pT pI hTT
    obtain ⟨i, n⟩ := a
    have hallP := List.find?_eq_none.mp hP
    have hallT := List.find?_eq_none.mp hT
    have hnP : n.nodeType ≠ "OilPort" := by
      have := hallP (i, n) (List.mem_cons_self _ _); simpa [typeIs] using this
    have hnT : n.nodeType ≠ "OilTerminal" := by
      have := hallT (i, n) (List.mem_cons_self _ _); simpa [typeIs] using this
    have hPrest : rest.find? (typeIs "OilPort") = none :=
      List.find?_eq_none.mpr (fun x hx => hallP x (List.mem_cons_of_mem _ hx))
    have hTrest : rest.find? (typeIs "OilTerminal") = none :=
      List.find?_eq_none.mpr (fun x hx => hallT x (List.mem_cons_of_mem _ hx))
    rw [reverse_find?_cons] at hq
    cases hrev : rest.reverse.find? (typeIs "OilRefinery") with
    | some q' =>
      rw [hrev] at hq
      have hq' : q' = q := by simpa using hq
      obtain ⟨pN', pT', pI', hT', he⟩ := fcpOil_cons_skip2 i n rest pN pT pI hnP hnT hTT
      rw [he]
      exact hq' ▸ ih hPrest hTrest q' hrev pN' pT' pI' hT'
    | none =>
      rw [hrev] at hq
      by_cases hb : typeIs "OilRefinery" (i, n) = true
      · have hRf : n.nodeType = "OilRefinery" := by simpa [typeIs] using hb
        have hqa : q = (i, n) := by
          rw [if_pos hb] at hq; simpa using hq.symm
        have hrest3 : ∀ p ∈ rest, p.2.nodeType ≠ "OilPort" ∧ p.2.nodeType ≠ "OilTerminal"
            ∧ p.2.nodeType ≠ "OilRefinery" := by
          intro p hp
          refine ⟨fun hc => (hallP p (List.mem_cons_of_mem _ hp)) (by simp [typeIs, hc]),
                  fun hc => (hallT p (List.mem_cons_of_mem _ hp)) (by simp [typeIs, hc]),
                  fun hc => ?_⟩
          exact (List.find?_eq_none.mp hrev p (List.mem_reverse.mpr hp)) (by simp [typeIs, hc])
        subst hqa
        simp only [fcpOil]
        rw [if_neg hnP, if_neg hnT, if_pos ⟨hRf, hTT⟩]
        exact fcpOil_const rest hrest3 (some n) (some "OilRefinery") (some i)
      · rw [if_neg hb] at hq; simp at hq

theorem fcpCoal_const (ps : List (Nat × Node)) :
    (∀ p ∈ ps, p.2.nodeType ≠ "CoalDock" ∧ p.2.nodeType ≠ "CoalSource") →
    ∀ pN pT pI, fcpCoal ps pN pT pI = (pN, pI) := by
  induction ps with
  | nil => intro _ pN pT pI; rfl
  | cons a rest ih =>
    intro h pN pT pI
    obtain ⟨i, n⟩ := a
    obtain ⟨h1, h2⟩ := h (i, n) (List.mem_cons_self _ _)
    simp only [fcpCoal]
    rw [if_neg h1, if_neg h2]
    exact ih (fun p hp => h p (List.mem_cons_of_mem _ hp)) pN pT pI

theorem fcpCoal_cons_skip (i : Nat) (n : Node) (rest : List (Nat × Node))
    (pN : Option Node) (pT : Option String) (pI : Option Nat)
    (h : n.nodeType ≠ "CoalDock") :
    ∃ pN' pT' pI', fcpCoal ((i, n) :: rest) pN pT pI = fcpCoal rest pN' pT' pI' := by
  simp only [fcpCoal]
  rw [if_neg h]
  by_cases h2 : n.nodeType = "CoalSource"
  · rw [if_pos h2]; exact ⟨_, _, _, rfl⟩
  · rw [if_neg h2]; exact ⟨_, _, _, rfl⟩

theorem fcpCoal_top (ps : List (Nat × Node)) :
    ∀ q, ps.find? (typeIs "CoalDock") = some q →
    ∀ pN pT pI, fcpCoal ps pN pT pI = (some q.2, some q.1) := by
  induction ps with
  | nil => intro q hq; simp at hq
  | cons a rest ih =>
    intro q hq pN pT pI
    obtain ⟨i, n⟩ := a
    by_cases hn : n.nodeType = "CoalDock"
    · have hb : typeIs "CoalDock" (i, n) = true := by simp [typeIs, hn]
      rw [List.find?_cons_of_pos _ hb] at hq
      cases hq
      simp only [fcpCoal]
      rw [if_pos hn]
    · have hb : ¬ typeIs "CoalDock" (i, n) = true := by simp [typeIs, hn]
      rw [List.find?_cons_of_neg _ hb] at hq
      obtain ⟨pN', pT', pI', he⟩ := fcpCoal_cons_skip i n rest pN pT pI hn
      rw [he]
      exact ih q hq pN' pT' pI'

theorem fcpCoal_lastSource (ps : List (Nat × Node)) :
    ps.find? (typeIs "CoalDock") = none →
    ∀ q, ps.reverse.find? (typeIs "CoalSource") = some q →
    ∀ pN pT pI, fcpCoal ps pN pT pI = (some q.2, some q.1) := by
  induction ps with
  | nil => intro _ q hq; simp at hq
  | cons a rest ih =>
    intro hD q hq pN pT pI
    obtain ⟨i, n⟩ := a
    have hallD := List.find?_eq_none.mp hD
    have hnD : n.nodeType ≠ "CoalDock" := by
      have := hallD (i, n) (List.mem_cons_self _ _); simpa [typeIs] using this
    have hDrest : rest.find? (typeIs "CoalDock") = none :=
      List.find?_eq_none.mpr (fun x hx => hallD x (List.mem_cons_of_mem _ hx))
    rw [reverse_find?_cons] at hq
    cases hrev : rest.reverse.find? (typeIs "CoalSource") with
    | some q' =>
      rw [hrev] at hq
      have hq' : q' = q := by simpa using hq
      obtain ⟨pN', pT', pI', he⟩ := fcpCoal_cons_skip i n rest pN pT pI hnD
      rw [he]
      exact hq' ▸ ih hDrest q' hrev pN' pT' pI'
    | none =>
      rw [hrev] at hq
      by_cases hb : typeIs "CoalSource" (i, n) = true
      · have hCS : n.nodeType = "CoalSource" := by simpa [typeIs] using hb
        have hqa : q = (i, n) := by
          rw [if_pos hb] at hq; simpa using hq.symm
        have hrest2 : ∀ p ∈ rest, p.2.nodeType ≠ "CoalDock" ∧ p.2.nodeType ≠ "CoalSource" := by
          intro p hp
          refine ⟨fun hc => (hallD p (List.mem_cons_of_mem _ hp)) (by simp [typeIs, hc]),
                  fun hc => ?_⟩
          exact (List.find?_eq_none.mp hrev p (List.mem_reverse.mpr hp)) (by simp [typeIs, hc])
        subst hqa
        simp only [fcpCoal]
        rw [if_neg hnD, if_pos hCS]
        exact fcpCoal_const rest hrest2 (some n) (some "CoalSource") (some i)
      · rw [if_neg hb] at hq; simp at hq

/-! ## `sortedUnique` and midpoint lemmas (claim C10) -/

theorem mem_insertSortedNat (a b : Nat) (l : List Nat) :
    a ∈ insertSortedNat b l ↔ a = b ∨ a ∈ l := by
  induction l with
  | nil => simp [insertSortedNat]
  | cons c t ih =>
    simp only [insertSortedNat]
    by_cases h1 : b < c
    · rw [if_pos h1]; simp
    · rw [if_neg h1]
      by_cases h2 : b = c
      · rw [if_pos h2]
        subst h2
        simp only [List.mem_cons]
        constructor
        · intro h; exact Or.inr h
        · rintro (rfl | h)
          · exact Or.inl rfl
          · exact h
      · rw [if_neg h2]
        simp only [List.mem_cons, ih]
        constructor
        · rintro (h | h | h)
          · exact Or.inr (Or.inl h)
          · exact Or.inl h
          · exact Or.inr (Or.inr h)
        · rintro (h | h | h)
          · exact Or.inr (Or.inl h)
          · exact Or.inl h
          · exact Or.inr (Or.inr h)

theorem mem_foldl_insertSortedNat (l : List Nat) :
    ∀ (acc : List Nat) (a : Nat),
      a ∈ l.foldl (fun acc b => insertSortedNat b acc) acc ↔ a ∈ acc ∨ a ∈ l := by
  induction l with
  | nil => intro acc a; simp
  | cons b t ih =>
    intro acc a
    simp only [List.foldl_cons]
    rw [ih]
    rw [mem_insertSortedNat]
    simp only [List.mem_cons]
    tauto

theorem mem_sortedUnique (l : List Nat) (a : Nat) :
    a ∈ sortedUnique l ↔ a ∈ l := by
  unfold sortedUnique
  rw [mem_foldl_insertSortedNat]
  simp

theorem pairwise_insertSortedNat (b : Nat) (l : List Nat)
    (h : l.Pairwise (· < ·)) : (insertSortedNat b l).Pairwise (· < ·) := by
  induction l with
  | nil => simp [insertSortedNat]
  | cons c t ih =>
    rw [List.pairwise_cons] at h
    obtain ⟨hc, ht⟩ := h
    simp only [insertSortedNat]
    by_cases h1 : b < c
    · rw [if_pos h1]
      rw [List.pairwise_cons]
      refine ⟨?_, List.pairwise_cons.mpr ⟨hc, ht⟩⟩
      intro x hx
      rcases List.mem_cons.mp hx with rfl | hx
      · exact h1
      · exact lt_trans h1 (hc x hx)
    · rw [if_neg h1]
      by_cases h2 : b = c
      · rw [if_pos h2]
        exact List.pairwise_cons.mpr ⟨hc, ht⟩
      · rw [if_neg h2]
        rw [List.pairwise_cons]
        refine ⟨?_, ih ht⟩
        intro x hx
        rcases (mem_insertSortedNat x b t).mp hx with rfl | hx
        · omega
        · exact hc x hx

theorem pairwise_sortedUnique (l : List Nat) :
    (sortedUnique l).Pairwise (· < ·) := by
  unfold sortedUnique
  have h : ∀ acc : List Nat, acc.Pairwise (· < ·) →
      (l.foldl (fun acc b => insertSortedNat b acc) acc).Pairwise (· < ·) := by
    induction l with
    | nil => intro acc ha; simpa using ha
    | cons b t ih =>
      intro acc ha
      simp only [List.foldl_cons]
      exact ih _ (pairwise_insertSortedNat b acc ha)
  exact h [] (by simp)

theorem nodup_sortedUnique (l : List Nat) : (sortedUnique l).Nodup :=
  (pairwise_sortedUnique l).imp (fun h => Nat.ne_of_lt h)

theorem mem_clustMembers (clusters : List (Option Nat)) (c i : Nat) :
    i ∈ clustMembers clusters c
      ↔ i < clusters.length ∧ clusters.getD i none = some c := by
  simp only [clustMembers, List.mem_filter, List.mem_range]
  constructor
  · rintro ⟨h1, h2⟩
    exact ⟨h1, by simpa using h2⟩
  · rintro ⟨h1, h2⟩
    exact ⟨h1, by simpa using h2⟩

theorem meanAt_congr (a b : List ℚ) (idxs : List Nat)
    (h : ∀ i ∈ idxs, a.getD i 0 = b.getD i 0) : meanAt a idxs = meanAt b idxs := by
  unfold meanAt
  have hm : idxs.map (fun i => a.getD i 0) = idxs.map (fun i => b.getD i 0) := by
    induction idxs with
    | nil => rfl
    | cons j t ih =>
      simp only [List.map_cons]
      rw [h j (List.mem_cons_self _ _),
        ih (fun i hi => h i (List.mem_cons_of_mem _ hi))]
  rw [hm]

theorem midFold_invariant (clusters : List (Option Nat)) (xs0 ys0 : List ℚ) :
    ∀ (Q P : List Nat) (st : MidState),
      (P ++ Q).Nodup →
      st.xs.length = clusters.length →
      st.ys.length = clusters.length →
      (∀ i, i < clusters.length →
        (clusters.getD i none = none →
          st.xs.getD i 0 = xs0.getD i 0 ∧ st.ys.getD i 0 = ys0.getD i 0)
        ∧ (∀ c, clusters.getD i none = some c → c ∈ P →
            st.xs.getD i 0 = meanAt xs0 (clustMembers clusters c)
            ∧ st.ys.getD i 0 = meanAt ys0 (clustMembers clusters c))
        ∧ (∀ c, clusters.getD i none = some c → c ∉ P →
            st.xs.getD i 0 = xs0.getD i 0 ∧ st.ys.getD i 0 = ys0.getD i 0)) →
      ((Q.foldl (midStep clusters) st).xs.length = clusters.length
        ∧ (Q.foldl (midStep clusters) st).ys.length = clusters.length
        ∧ (Q.foldl (midStep clusters) st).clustCenter.length
            = st.clustCenter.length + Q.length
        ∧ (∀ i, i < clusters.length →
            (clusters.getD i none = none →
              (Q.foldl (midStep clusters) st).xs.getD i 0 = xs0.getD i 0
              ∧ (Q.foldl (midStep clusters) st).ys.getD i 0 = ys0.getD i 0)
            ∧ (∀ c, clusters.getD i none = some c → c ∈ P ++ Q →
                (Q.foldl (midStep clusters) st).xs.getD i 0
                  = meanAt xs0 (clustMembers clusters c)
                ∧ (Q.foldl (midStep clusters) st).ys.getD i 0
                  = meanAt ys0 (clustMembers clusters c))
            ∧ (∀ c, clusters.getD i none = some c → c ∉ P ++ Q →
                (Q.foldl (midStep clusters) st).xs.getD i 0 = xs0.getD i 0
                ∧ (Q.foldl (midStep clusters) st).ys.getD i 0 = ys0.getD i 0))) := by
  intro Q
  induction Q with
  | nil =>
    intro P st hnd hx hy hinv
    refine ⟨hx, hy, by simp, ?_⟩
    intro i hi
    obtain ⟨h1, h2, h3⟩ := hinv i hi
    exact ⟨h1, fun c hc hm => h2 c hc (by simpa using hm),
      fun c hc hm => h3 c hc (by simpa using hm)⟩
  | cons c Q' ih =>
    intro P st hnd hx hy hinv
    simp only [List.foldl_cons]
    have hcP : c ∉ P := by
      intro hc
      have hd := (List.nodup_append.mp hnd).2.2
      exact hd hc (List.mem_cons_self _ _)
    have hmean_x : meanAt st.xs (clustMembers clusters c)
        = meanAt xs0 (clustMembers clusters c) := by
      apply meanAt_congr
      intro i hi
      obtain ⟨hilen, hic⟩ := (mem_clustMembers clusters c i).mp hi
      exact ((hinv i hilen).2.2 c hic hcP).1
    have hmean_y : meanAt st.ys (clustMembers clusters c)
        = meanAt ys0 (clustMembers clusters c) := by
      apply meanAt_congr
      intro i hi
      obtain ⟨hilen, hic⟩ := (mem_clustMembers clusters c i).mp hi
      exact ((hinv i hilen).2.2 c hic hcP).2
    have hstep_x : (midStep clusters st c).xs
        = setAll st.xs (clustMembers clusters c) (meanAt st.xs (clustMembers clusters c)) :=
      rfl
    have hstep_y : (midStep clusters st c).ys
        = setAll st.ys (clustMembers clusters c) (meanAt st.ys (clustMembers clusters c)) :=
      rfl
    have hstep_cc : (midStep clusters st c).clustCenter.length
        = st.clustCenter.length + 1 := by
      simp [midStep]
    have hx1 : (midStep clusters st c).xs.length = clusters.length := by
      rw [hstep_x, length_setAll, hx]
    have hy1 : (midStep clusters st c).ys.length = clusters.length := by
      rw [hstep_y, length_setAll, hy]
    have hnd1 : ((P ++ [c]) ++ Q').Nodup := by
      have : (P ++ [c]) ++ Q' = P ++ c :: Q' := by simp
      rw [this]
      exact hnd
    have hinv1 : ∀ i, i < clusters.length →
        (clusters.getD i none = none →
          (midStep clusters st c).xs.getD i 0 = xs0.getD i 0
          ∧ (midStep clusters st c).ys.getD i 0 = ys0.getD i 0)
        ∧ (∀ c', clusters.getD i none = some c' → c' ∈ P ++ [c] →
            (midStep clusters st c).xs.getD i 0 = meanAt xs0 (clustMembers clusters c')
            ∧ (midStep clusters st c).ys.getD i 0 = meanAt ys0 (clustMembers clusters c'))
        ∧ (∀ c', clusters.getD i none = some c' → c' ∉ P ++ [c] →
            (midStep clusters st c).xs.getD i 0 = xs0.getD i 0
            ∧ (midStep clusters st c).ys.getD i 0 = ys0.getD i 0) := by
      intro i hi
      obtain ⟨h1, h2, h3⟩ := hinv i hi
      refine ⟨?_, ?_, ?_⟩
      · intro hn
        have hnm : i ∉ clustMembers clusters c := by
          intro hm
          rw [((mem_clustMembers clusters c i).mp hm).2] at hn
          exact Option.noConfusion hn
        rw [hstep_x, hstep_y, getD_setAll_not_mem _ _ _ _ _ hnm,
          getD_setAll_not_mem _ _ _ _ _ hnm]
        exact h1 hn
      · intro c' hc' hm
        rcases List.mem_append.mp hm with hmP | hmc
        · have hne : c' ≠ c := fun he => hcP (he ▸ hmP)
          have hnm : i ∉ clustMembers clusters c := by
            intro hmem
            have := ((mem_clustMembers clusters c i).mp hmem).2
            rw [hc'] at this
            exact hne (Option.some.inj this)
          rw [hstep_x, hstep_y, getD_setAll_not_mem _ _ _ _ _ hnm,
            getD_setAll_not_mem _ _ _ _ _ hnm]
          exact h2 c' hc' hmP
        · have hce : c' = c := by simpa using hmc
          subst hce
          have hmem : i ∈ clustMembers clusters c' :=
            (mem_clustMembers clusters c' i).mpr ⟨hi, hc'⟩
          rw [hstep_x, hstep_y,
            getD_setAll_mem _ _ _ _ _ hmem (by rw [hx]; exact hi),
            getD_setAll_mem _ _ _ _ _ hmem (by rw [hy]; exact hi)]
          exact ⟨hmean_x, hmean_y⟩
      · intro c' hc' hm
        have hneP : c' ∉ P := fun h => hm (List.mem_append.mpr (Or.inl h))
        have hne : c' ≠ c := fun he =>
          hm (List.mem_append.mpr (Or.inr (by simp [he])))
        have hnm : i ∉ clustMembers clusters c := by
          intro hmem
          have := ((mem_clustMembers clusters c i).mp hmem).2
          rw [hc'] at this
          exact hne (Option.some.inj this)
        rw [hstep_x, hstep_y, getD_setAll_not_mem _ _ _ _ _ hnm,
          getD_setAll_not_mem _ _ _ _ _ hnm]
        exact h3 c' hc' hneP
    obtain ⟨gx, gy, gcc, ginv⟩ := ih (P ++ [c]) (midStep clusters st c) hnd1 hx1 hy1 hinv1
    refine ⟨gx, gy, by rw [gcc, hstep_cc]; simp; omega, ?_⟩
    intro i hi
    obtain ⟨g1, g2, g3⟩ := ginv i hi
    refine ⟨g1, ?_, ?_⟩
    · intro c' hc' hm
      apply g2 c' hc'
      have : (P ++ [c]) ++ Q' = P ++ c :: Q' := by simp
      rw [this]
      exact hm
    · intro c' hc' hm
      apply g3 c' hc'
      have : (P ++ [c]) ++ Q' = P ++ c :: Q' := by simp
      rw [this]
      exact hm

/-! ## C4 helper lemmas: the pruner's two folds, `joinLineSegs`
preservation and the connector store of `linkClusterBuffers` -/

theorem lines_foldl_rcRemoveStep (D : List Nat) (st : AState) :
    (D.foldl rcRemoveStep st).lines
      = D.foldl (fun ls k => ls.eraseIdx k) st.lines := by
  induction D generalizing st with
  | nil => rfl
  | cons d t ih => simpa [List.foldl_cons] using ih (rcRemoveStep st d)

theorem eraseFold_selfLoopFree (D : List Nat) (ls : List Line)
    (hsort : D.Pairwise (fun a b => b < a))
    (hbound : ∀ d ∈ D, d < ls.length)
    (hinv : ∀ k, k < ls.length → k ∈ D ∨
      (ls.getD k defLine).clust_origin ≠ (ls.getD k defLine).clust_dest) :
    selfLoopFree (D.foldl (fun l k => l.eraseIdx k) ls) := by
  induction D generalizing ls with
  | nil =>
    simp only [List.foldl_nil]
    intro l hl
    obtain ⟨k, hk, he⟩ := List.mem_iff_getElem.mp hl
    have := (hinv k hk).resolve_left (List.not_mem_nil k)
    rwa [List.getD_eq_getElem ls defLine hk, he] at this
  | cons d t ih =>
    have hd : d < ls.length := hbound d (List.mem_cons_self d t)
    have hlen : (ls.eraseIdx d).length = ls.length - 1 :=
      List.length_eraseIdx_of_lt hd
    refine ih (ls.eraseIdx d) (List.Pairwise.sublist (List.sublist_cons_self d t) hsort)
      (fun e he => ?_) (fun k hk => ?_)
    · have h1 : e < d := List.rel_of_pairwise_cons hsort he
      omega
    · rw [getD_eraseIdx]
      by_cases hkd : k < d
      · rw [if_pos hkd]
        rcases hinv k (by omega) with hm | hne
        · rcases List.mem_cons.mp hm with he | hm2
          · omega
          · exact Or.inl hm2
        · exact Or.inr hne
      · rw [if_neg hkd]
        rcases hinv (k + 1) (by omega) with hm | hne
        · rcases List.mem_cons.mp hm with he | hm2
          · omega
          · exact absurd (List.rel_of_pairwise_cons hsort hm2) (by omega)
        · exact Or.inr hne

theorem rcSet_invariant (pts : List (ℤ × ℤ)) (st : AState)
    (hA : alignedState st) (hpl : pts.length = st.resourceIdx.length) :
    ∀ j, j ≤ pts.length → ∀ st1 del,
      (List.range j).foldl (rcSetStep pts (st.lines.length * 2)) (st, []) = (st1, del) →
      st1.lines.length = st.lines.length
      ∧ st1.clusters = st.clusters
      ∧ st1.resourceIdx = st.resourceIdx
      ∧ (∀ m, m < st.lines.length → 2 * m < j →
          (st1.lines.getD m defLine).clust_origin = st.clusters.getD (2 * m) none)
      ∧ (∀ m, m < st.lines.length → 2 * m + 1 < j →
          (st1.lines.getD m defLine).clust_dest = st.clusters.getD (2 * m + 1) none)
      ∧ del = (List.range (min (j / 2) st.lines.length)).filter
          (fun m => st.clusters.getD (2 * m) none == st.clusters.getD (2 * m + 1) none) := by
  intro j
  induction j with
  | zero =>
    intro _ st1 del h
    simp only [List.range_zero, List.foldl_nil] at h
    obtain ⟨h1, h2⟩ := Prod.mk.inj h
    subst h1; subst h2
    exact ⟨rfl, rfl, rfl, fun m _ hm => absurd hm (by omega),
      fun m _ hm => absurd hm (by omega), by simp⟩
  | succ j ih =>
    intro hj1 st1 del h
    rcases hsd : (List.range j).foldl (rcSetStep pts (st.lines.length * 2)) (st, [])
      with ⟨st0, del0⟩
    obtain ⟨h1, h2, h3, h4, h5, h6⟩ := ih (by omega) st0 del0 hsd
    rw [List.range_succ, List.foldl_append, List.foldl_cons, List.foldl_nil, hsd] at h
    simp only [rcSetStep] at h
    rw [h3] at h
    by_cases hbig : st.lines.length * 2 ≤ j
    · have hr : st.lines.length * 2 ≤ st.resourceIdx.getD j 0 := by
        have := hA.2.2.2 j (by omega) (by omega)
        omega
      rw [if_pos hr] at h
      obtain ⟨h7, h8⟩ := Prod.mk.inj h
      subst h7; subst h8
      refine ⟨h1, h2, rfl, fun m hm hmj => h4 m hm (by omega),
        fun m hm hmj => h5 m hm (by omega), ?_⟩
      rw [h6]
      have : min ((j + 1) / 2) st.lines.length = min (j / 2) st.lines.length := by
        omega
      rw [this]
    · have hr : st.resourceIdx.getD j 0 = j := hA.2.2.1 j (by omega)
      rw [hr, if_neg hbig] at h
      by_cases hpar : j % 2 = 0
      · -- even entry: origin side of line j / 2
        rw [if_pos hpar] at h
        obtain ⟨h7, h8⟩ := Prod.mk.inj h
        subst h7; subst h8
        have hm2 : j / 2 < st0.lines.length := by rw [h1]; omega
        refine ⟨by simp [h1], h2, rfl, ?_, ?_, ?_⟩
        · intro m hm hmj
          by_cases hme : m = j / 2
          · subst hme
            rw [getD_set_self _ _ _ _ hm2]
            simp only [h2]
            have : 2 * (j / 2) = j := by omega
            rw [this]
          · rw [getD_set_ne _ _ _ _ _ (fun e => hme e.symm)]
            exact h4 m hm (by omega)
        · intro m hm hmj
          have hme : m ≠ j / 2 := by omega
          rw [getD_set_ne _ _ _ _ _ (fun e => hme e.symm)]
          exact h5 m hm (by omega)
        · rw [h6]
          have : min ((j + 1) / 2) st.lines.length = min (j / 2) st.lines.length := by
            omega
          rw [this]
      · -- odd entry: destination side of line j / 2, self-loop check
        rw [if_neg hpar] at h
        have hm2 : j / 2 < st.lines.length := by omega
        have hm2' : j / 2 < st0.lines.length := by omega
        have horig : (st0.lines.getD (j / 2) defLine).clust_origin
            = st.clusters.getD (2 * (j / 2)) none := h4 (j / 2) hm2 (by omega)
        obtain ⟨h7, h8⟩ := Prod.mk.inj h
        subst h7; subst h8
        have hjeq : 2 * (j / 2) + 1 = j := by omega
        refine ⟨by simp [h1], h2, rfl, ?_, ?_, ?_⟩
        · intro m hm hmj
          by_cases hme : m = j / 2
          · subst hme
            rw [getD_set_self _ _ _ _ hm2']
            simpa using horig
          · rw [getD_set_ne _ _ _ _ _ (fun e => hme e.symm)]
            exact h4 m hm (by omega)
        · intro m hm hmj
          by_cases hme : m = j / 2
          · subst hme
            rw [getD_set_self _ _ _ _ hm2']
            simp only [h2]
            rw [hjeq]
          · rw [getD_set_ne _ _ _ _ _ (fun e => hme e.symm)]
            exact h5 m hm (by omega)
        · have hmin1 : min ((j + 1) / 2) st.lines.length = j / 2 + 1 := by omega
          have hmin0 : min (j / 2) st.lines.length = j / 2 := by omega
          rw [hmin1, List.range_succ, List.filter_append, h6, hmin0]
          simp only [h2, horig, List.filter_cons, List.filter_nil]
          rw [hjeq]
          by_cases hc : st.clusters.getD (2 * (j / 2)) none
              = st.clusters.getD j none
          · rw [if_pos hc, if_pos (by rw [beq_iff_eq]; exact hc)]
          · rw [if_neg hc, if_neg (by rw [beq_iff_eq]; exact hc)]
            simp

theorem reviseCoordsCore_selfLoopFree (pts : List (ℤ × ℤ)) (st : AState)
    (hA : alignedState st) (hpl : pts.length = st.resourceIdx.length) :
    selfLoopFree (reviseCoordsCore pts st).lines := by
  simp only [reviseCoordsCore]
  rcases hsd : (List.range pts.length).foldl (rcSetStep pts (st.lines.length * 2)) (st, [])
    with ⟨st1, del⟩
  obtain ⟨h1, h2, h3, h4, h5, h6⟩ :=
    rcSet_invariant pts st hA hpl pts.length le_rfl st1 del hsd
  have hL : 2 * st.lines.length ≤ pts.length := by
    rw [hpl]; exact hA.2.1
  rw [lines_foldl_rcRemoveStep]
  refine eraseFold_selfLoopFree del.reverse st1.lines
    (List.pairwise_reverse.mpr ?_) (fun d hd => ?_) (fun k hk => ?_)
  · rw [h6]
    exact List.Pairwise.filter _ (List.pairwise_lt_range _)
  · rw [List.mem_reverse, h6] at hd
    have := List.mem_range.mp (List.mem_filter.mp hd).1
    rw [h1]
    omega
  · rw [h1] at hk
    by_cases hc : st.clusters.getD (2 * k) none = st.clusters.getD (2 * k + 1) none
    · refine Or.inl (List.mem_reverse.mpr ?_)
      rw [h6]
      refine List.mem_filter.mpr ⟨List.mem_range.mpr (by omega), ?_⟩
      rw [beq_iff_eq]
      exact hc
    · refine Or.inr ?_
      rw [h4 k hk (by omega), h5 k hk (by omega)]
      exact hc

theorem jlsFinish_lines (st : AState) (k1 i : Nat) (p1 : Line) (side : Bool)
    (pr : AState × Nat) (h : jlsFinish st k1 i p1 side = Except.ok pr) :
    pr.1.lines = (st.lines.set k1 p1).eraseIdx i := by
  simp only [jlsFinish, Except.map] at h
  repeat' split at h
  all_goals
    first
      | exact Except.noConfusion h
      | (obtain rfl := Except.ok.inj h; rfl)

theorem jlsIter_selfLoopFree (st : AState) (k1 : Nat) (st2 : AState) (k2 : Nat)
    (h : jlsIter st k1 = Except.ok (st2, k2)) (hfree : selfLoopFree st.lines) :
    selfLoopFree st2.lines := by
  have hkeep : ∀ (i : Nat) (p1 : Line),
      p1.clust_origin ≠ p1.clust_dest →
      st2.lines = (st.lines.set k1 p1).eraseIdx i → selfLoopFree st2.lines := by
    intro i p1 hp1 hl l hl2
    rw [hl] at hl2
    rcases List.mem_or_eq_of_mem_set (List.eraseIdx_subset _ _ hl2) with hm | he
    · exact hfree l hm
    · rw [he]; exact hp1
  simp only [jlsIter] at h
  split at h
  · split at h
    · split at h
      · refine hkeep _ _ (fun e => ?_) (jlsFinish_lines _ _ _ _ _ _ h)
        next hg =>
          exact hg.2 (by simpa using e.symm)
      · split at h
        · refine hkeep _ _ (fun e => ?_) (jlsFinish_lines _ _ _ _ _ _ h)
          next hg =>
            exact hg.2 (by simpa using e.symm)
        · obtain rfl := (Prod.mk.inj (Except.ok.inj h)).1.symm
          exact hfree
    · exact Except.noConfusion h
  · split at h
    · split at h
      · split at h
        · refine hkeep _ _ (fun e => ?_) (jlsFinish_lines _ _ _ _ _ _ h)
          next hg =>
            exact hg.2 (by simpa using e)
        · split at h
          · refine hkeep _ _ (fun e => ?_) (jlsFinish_lines _ _ _ _ _ _ h)
            next hg =>
              exact hg.2 (by simpa using e)
          · obtain rfl := (Prod.mk.inj (Except.ok.inj h)).1.symm
            exact hfree
      · exact Except.noConfusion h
    · obtain rfl := (Prod.mk.inj (Except.ok.inj h)).1.symm
      exact hfree

theorem jlsRun_selfLoopFree (fuel : Nat) :
    ∀ (st : AState) (k1 : Nat) (st2 : AState),
      jlsRun fuel st k1 = Except.ok st2 → selfLoopFree st.lines →
      selfLoopFree st2.lines := by
  induction fuel with
  | zero => intro st k1 st2 h; exact Except.noConfusion h
  | succ fuel ih =>
    intro st k1 st2 h hfree
    simp only [jlsRun] at h
    split at h
    · split at h
      · exact Except.noConfusion h
      · next st1 k1' heq =>
          exact ih st1 k1' st2 (by simpa using h)
            (jlsIter_selfLoopFree st k1 st1 k1' (by simpa using heq) hfree)
    · obtain rfl := Except.ok.inj h
      exact hfree

theorem lcBuild_store (pN cN : Node) (lt : String) (acc : LCAcc) :
    (lcBuild pN cN lt acc).2.store = acc.store := by
  simp only [lcBuild]
  repeat' split
  all_goals rfl

theorem lcBuild_clust (pN cN : Node) (lt : String) (acc : LCAcc) (nl : Line)
    (h : (lcBuild pN cN lt acc).1 = some nl) :
    nl.clust_origin = nl.clust_dest := by
  simp only [lcBuild] at h
  repeat' split at h
  all_goals
    first
      | exact Option.noConfusion h
      | (obtain rfl := Option.some.inj h; rfl)

theorem lcStep_storeOut (L2 : Nat) (nodes : List Node) (pIdx : Nat) (pN : Node)
    (lt : String) (cl : Option Nat) (acc : LCAcc) (k2 : Nat) (acc2 : LCAcc)
    (h : lcStep L2 nodes pIdx pN lt cl acc k2 = Except.ok acc2)
    (hinv : ∀ x ∈ acc.store, x.clust_origin = x.clust_dest) :
    ∀ x ∈ acc2.store, x.clust_origin = x.clust_dest := by
  simp only [lcStep] at h
  split at h
  · obtain rfl := Except.ok.inj h
    exact hinv
  · split at h
    · exact Except.noConfusion h
    · obtain rfl := Except.ok.inj h
      intro x hx
      rcases List.mem_or_eq_of_mem_set hx with hm | he
      · rcases hst : (lcBuild pN (nodes.getD (k2 - L2) defNode) lt acc).1 with _ | nl
        · rw [hst] at hm
          rw [lcBuild_store] at hm
          exact hinv x hm
        · rw [hst] at hm
          rcases List.mem_append.mp hm with hm2 | hm3
          · rw [lcBuild_store] at hm2
            exact hinv x hm2
          · obtain rfl := List.mem_singleton.mp hm3
            exact lcBuild_clust pN _ lt acc x hst
      · rw [he]

theorem lcSteps_storeOut (L2 : Nat) (nodes : List Node) (pIdx : Nat) (pN : Node)
    (lt : String) (cl : Option Nat) :
    ∀ (l : List Nat) (acc acc2 : LCAcc),
      l.foldlM (lcStep L2 nodes pIdx pN lt cl) acc = Except.ok acc2 →
      (∀ x ∈ acc.store, x.clust_origin = x.clust_dest) →
      ∀ x ∈ acc2.store, x.clust_origin = x.clust_dest := by
  intro l
  induction l with
  | nil =>
    intro acc acc2 h hinv
    obtain rfl := Except.ok.inj h
    exact hinv
  | cons a t ih =>
    intro acc acc2 h hinv
    rw [List.foldlM_cons] at h
    rcases hstep : lcStep L2 nodes pIdx pN lt cl acc a with e | acc1
    · rw [hstep] at h
      exact Except.noConfusion h
    · rw [hstep] at h
      exact ih acc1 acc2 h
        (lcStep_storeOut L2 nodes pIdx pN lt cl acc a acc1 hstep hinv)

theorem lcCluster_storeOut (st : AState) (acc : LCAcc)
    (e : Nat × String × Option Nat) (acc2 : LCAcc)
    (h : lcCluster st acc e = Except.ok acc2)
    (hinv : ∀ x ∈ acc.store, x.clust_origin = x.clust_dest) :
    ∀ x ∈ acc2.store, x.clust_origin = x.clust_dest :=
  lcSteps_storeOut _ _ _ _ _ _ _ acc acc2 h hinv

theorem lcClusters_storeOut (st : AState) :
    ∀ (rad : List (Nat × String × Option Nat)) (acc acc2 : LCAcc),
      rad.foldlM (lcCluster st) acc = Except.ok acc2 →
      (∀ x ∈ acc.store, x.clust_origin = x.clust_dest) →
      ∀ x ∈ acc2.store, x.clust_origin = x.clust_dest := by
  intro rad
  induction rad with
  | nil =>
    intro acc acc2 h hinv
    obtain rfl := Except.ok.inj h
    exact hinv
  | cons a t ih =>
    intro acc acc2 h hinv
    rw [List.foldlM_cons] at h
    rcases hstep : lcCluster st acc a with e | acc1
    · rw [hstep] at h
      exact Except.noConfusion h
    · rw [hstep] at h
      exact ih acc1 acc2 h (lcCluster_storeOut st acc a acc1 hstep hinv)

/-! ## Claim theorems -/

/-- **C1** (code bug).  On `c1ptsOD`/`c1ptsB` the buffer entry (number 2)
is still unclustered after the primary pass, its column's only endpoint
entry is entry number 0, and that endpoint is within `eps2` of it; the
claim therefore says the buffer inherits cluster 0.  The code instead
leaves it unclustered: the emptiness guard `if not refIdx.any()` is an
elementwise-truthiness test and is `False` on the index array `[0]`. -/
theorem C1_secondary_entry0_skip :
    (snapEdges2GridRef c1ptsOD c1ptsB 2).clusters = [some 0, some 1, none]
    ∧ colIdx c1ptsOD ((c1ptsOD ++ c1ptsB).getD 2 dEntry).col = [0]
    ∧ dist2 ((c1ptsOD ++ c1ptsB).getD 2 dEntry) (c1ptsOD.getD 0 dEntry) ≤ eps2 ^ 2
    ∧ (snapPrimary c1ptsOD (c1ptsOD ++ c1ptsB) 2 (initState 3)).clusters.getD 2 none
        = none := by
  decide

/-- **C2** (counterexample).  After the primary pass on `c2ptsOD`, entry
5 is equidistant (and within `eps1`) from the clustered entries 3 and 4,
whose cluster ids are 1 and 0; the claim's tie-break ("toward the lowest
cluster-id") demands cluster 0, but the code assigns cluster 1 — the
cluster of the tied candidate that comes first in point-table order. -/
theorem C2_tie_not_lowest_cluster :
    (snapEdges2GridRef c2ptsOD [] 6).clusters
        = [some 0, some 1, some 2, some 1, some 0, some 1]
    ∧ dist2 (c2ptsOD.getD 5 dEntry) (c2ptsOD.getD 3 dEntry)
        = dist2 (c2ptsOD.getD 5 dEntry) (c2ptsOD.getD 4 dEntry)
    ∧ dist2 (c2ptsOD.getD 5 dEntry) (c2ptsOD.getD 4 dEntry) ≤ eps1 ^ 2
    ∧ (snapEdges2GridRef c2ptsOD [] 6).clusters.getD 3 none = some 1
    ∧ (snapEdges2GridRef c2ptsOD [] 6).clusters.getD 4 none = some 0
    ∧ (snapEdges2GridRef c2ptsOD [] 6).clusters.getD 5 none = some 1 := by
  decide

/-- **C2** (amended).  The primary pass iterates the endpoint rows in
order (origin and destination of each transporter in insertion order);
an endpoint row any of whose entries is already clustered is *skipped*;
for each entry of a processed row the candidates are the entries of the
same commodity column within `eps1`: if no candidate is clustered, all
candidates receive one fresh (incremented) cluster id and nothing else
changes; if some candidate is clustered, the unclustered candidates join
the cluster of the clustered candidate at the smallest geometric
distance with ties broken toward the *earliest candidate in point-table
order* (not the lowest cluster id), and the clustered candidates,
non-candidates and the fresh-id counter are unchanged. -/
theorem C2_amended_primary :
    (∀ ptsOD pts nRowsOD st,
      snapPrimary ptsOD pts nRowsOD st
        = (List.range nRowsOD).foldl (primaryStep ptsOD pts) st)
  ∧ (∀ ptsOD pts st k1,
      (rowIdx ptsOD k1).any (fun i => (st.clusters.getD i none).isSome) = true →
      primaryStep ptsOD pts st k1 = st)
  ∧ (∀ ptsOD pts st k1,
      (rowIdx ptsOD k1).any (fun i => (st.clusters.getD i none).isSome) = false →
      primaryStep ptsOD pts st k1 = (rowIdx ptsOD k1).foldl (innerStep pts) st)
  ∧ (∀ pts st k2,
      ((colIdx pts (pts.getD k2 dEntry).col).filter
          (fun i => decide (dist2 (pts.getD k2 dEntry) (pts.getD i dEntry) ≤ eps1 ^ 2))).any
        (fun i => (st.clusters.getD i none).isSome) = false →
      (innerStep pts st k2).clust = st.clust + 1
      ∧ (innerStep pts st k2).resourcesToAdd = st.resourcesToAdd
      ∧ (∀ j, j ∈ (colIdx pts (pts.getD k2 dEntry).col).filter
            (fun i => decide (dist2 (pts.getD k2 dEntry) (pts.getD i dEntry) ≤ eps1 ^ 2)) →
          j < st.clusters.length →
          (innerStep pts st k2).clusters.getD j none = some st.clust)
      ∧ (∀ j, j ∉ (colIdx pts (pts.getD k2 dEntry).col).filter
            (fun i => decide (dist2 (pts.getD k2 dEntry) (pts.getD i dEntry) ≤ eps1 ^ 2)) →
          (innerStep pts st k2).clusters.getD j none = st.clusters.getD j none))
  ∧ (∀ pts st k2,
      ((colIdx pts (pts.getD k2 dEntry).col).filter
          (fun i => decide (dist2 (pts.getD k2 dEntry) (pts.getD i dEntry) ≤ eps1 ^ 2))).any
        (fun i => (st.clusters.getD i none).isSome) = true →
      (innerStep pts st k2).clust = st.clust
      ∧ (innerStep pts st k2).resourcesToAdd = st.resourcesToAdd
      ∧ (∃ best l₁ l₂,
          ((colIdx pts (pts.getD k2 dEntry).col).filter
              (fun i => decide (dist2 (pts.getD k2 dEntry) (pts.getD i dEntry) ≤ eps1 ^ 2))).filter
            (fun i => (st.clusters.getD i none).isSome) = l₁ ++ best :: l₂
          ∧ (∀ j ∈ l₁, dist2 (pts.getD k2 dEntry) (pts.getD best dEntry)
              < dist2 (pts.getD k2 dEntry) (pts.getD j dEntry))
          ∧ (∀ j ∈ l₂, dist2 (pts.getD k2 dEntry) (pts.getD best dEntry)
              ≤ dist2 (pts.getD k2 dEntry) (pts.getD j dEntry))
          ∧ (∀ j, j ∈ (colIdx pts (pts.getD k2 dEntry).col).filter
                (fun i => decide (dist2 (pts.getD k2 dEntry) (pts.getD i dEntry) ≤ eps1 ^ 2)) →
              st.clusters.getD j none = none → j < st.clusters.length →
              (innerStep pts st k2).clusters.getD j none = st.clusters.getD best none)
          ∧ (∀ j, (st.clusters.getD j none).isSome = true →
              (innerStep pts st k2).clusters.getD j none = st.clusters.getD j none)
          ∧ (∀ j, j ∉ (colIdx pts (pts.getD k2 dEntry).col).filter
                (fun i => decide (dist2 (pts.getD k2 dEntry) (pts.getD i dEntry) ≤ eps1 ^ 2)) →
              (innerStep pts st k2).clusters.getD j none = st.clusters.getD j none))) := by
  refine ⟨fun _ _ _ _ => rfl, ?_, ?_, ?_, ?_⟩
  · intro ptsOD pts st k1 h
    simp only [primaryStep]
    rw [if_pos h]
  · intro ptsOD pts st k1 h
    simp only [primaryStep]
    rw [if_neg (by rw [h]; exact Bool.false_ne_true)]
  · intro pts st k2 h
    simp only [innerStep]
    rw [if_neg (by rw [h]; exact Bool.false_ne_true)]
    refine ⟨rfl, rfl, ?_, ?_⟩
    · intro j hj hjl
      exact getD_setAll_mem _ _ _ _ j hj hjl
    · intro j hj
      exact getD_setAll_not_mem _ _ _ _ j hj
  · intro pts st k2 h
    simp only [innerStep]
    rw [if_pos h]
    refine ⟨rfl, rfl, ?_⟩
    cases hcl : ((colIdx pts (pts.getD k2 dEntry).col).filter
        (fun i => decide (dist2 (pts.getD k2 dEntry) (pts.getD i dEntry) ≤ eps1 ^ 2))).filter
          (fun i => (st.clusters.getD i none).isSome) with
    | nil =>
      exfalso
      obtain ⟨x, hx1, hx2⟩ := List.any_eq_true.mp h
      have : x ∈ ((colIdx pts (pts.getD k2 dEntry).col).filter
          (fun i => decide (dist2 (pts.getD k2 dEntry) (pts.getD i dEntry) ≤ eps1 ^ 2))).filter
            (fun i => (st.clusters.getD i none).isSome) :=
        List.mem_filter.mpr ⟨hx1, hx2⟩
      rw [hcl] at this
      exact List.not_mem_nil x this
    | cons b rest =>
      obtain ⟨l₁, l₂, hdec, h1, h2⟩ :=
        argminFirst_spec (fun i => dist2 (pts.getD k2 dEntry) (pts.getD i dEntry)) b rest
      refine ⟨argminFirst (fun i => dist2 (pts.getD k2 dEntry) (pts.getD i dEntry)) (b :: rest),
        l₁, l₂, ?_, h1, h2, ?_, ?_, ?_⟩
      · exact hdec
      · intro j hj hjn hjl
        simp only [assign_eq_setAll]
        exact getD_setAll_mem _ _ _ _ j
          (List.mem_filter.mpr ⟨hj, by rw [Option.isNone_iff_eq_none]; exact hjn⟩) hjl
      · intro j hjs
        simp only [assign_eq_setAll]
        apply getD_setAll_not_mem
        intro hjm
        have hn := (List.mem_filter.mp hjm).2
        simp only [Option.isNone_iff_eq_none] at hn
        rw [Option.isSome_iff_exists] at hjs
        obtain ⟨v, hv⟩ := hjs
        rw [(by simpa using hn : st.clusters.getD j none = none)] at hv
        exact Option.noConfusion hv
      · intro j hj
        simp only [assign_eq_setAll]
        apply getD_setAll_not_mem
        intro hjm
        exact hj (List.mem_filter.mp hjm).1

/-- Witness for C2: the skip clause applied to a one-row table whose
single entry is already clustered. -/
theorem C2_amended_primary_witness :
    ((rowIdx [(⟨0, 0, 0, 0⟩ : Entry)] 0).any
      (fun i => (((⟨[some 0], 1, []⟩ : SnapState).clusters.getD i none).isSome)) = true)
    ∧ primaryStep [(⟨0, 0, 0, 0⟩ : Entry)] [(⟨0, 0, 0, 0⟩ : Entry)] ⟨[some 0], 1, []⟩ 0
      = ⟨[some 0], 1, []⟩ :=
  ⟨by decide, C2_amended_primary.2.1 [⟨0, 0, 0, 0⟩] [⟨0, 0, 0, 0⟩] ⟨[some 0], 1, []⟩ 0
    (by decide)⟩

/-- **C3** (code bug).  On `c3st` both clusters are bufferless and
contain exactly one transporter endpoint each — far fewer than three —
yet `addIndBuffers` synthesizes a junction buffer for each of them,
because the source never checks the endpoint count (contradicting its
own docstring "Add independent buffers where 3+ lines meet" and the
comment "if cluster members > 2 ..."). -/
theorem C3_indbuffer_without_three_endpoints :
    (addIndBuffers c3st [(0, 0), (10, 10)]).nodes.length = 2
    ∧ (positionsOf c3st.clusters (some 0)).length = 1
    ∧ (positionsOf c3st.clusters (some 1)).length = 1
    ∧ c3st.nodes.length = 0 := by
  decide

/-- **C4** (counterexample).  The radial connector emitted for cluster 7
carries `clust_origin = clust_dest = 7`: after the attributor/namer the
transporter list contains a self-loop by cluster ids, refuting the claim
that `cluster_origin ≠ cluster_dest` holds for every transporter from C4
onward. -/
theorem C4_connector_is_cluster_self_loop :
    ((linkClusterBuffers c4st [(0, "NGPipe", some 7)]).toOption.getD []).length = 1
    ∧ (((linkClusterBuffers c4st [(0, "NGPipe", some 7)]).toOption.getD []).getD 0
        defLine).clust_origin = some 7
    ∧ (((linkClusterBuffers c4st [(0, "NGPipe", some 7)]).toOption.getD []).getD 0
        defLine).clust_dest = some 7 := by
  decide

/-- **C4** (amended).  The no-self-loop invariant holds from the end of
the pruner through line joining and independent-buffer insertion, but
not through the namer: (1) on an aligned state the pruner's output has
`clust_origin ≠ clust_dest` for every surviving transporter; (2) each
self-loop removal drops the transporter and its two point-rows and
shifts every downstream point-row by `-2`; (3) `joinLineSegs` preserves
the invariant; (4) `addIndBuffers` leaves the transporter list
untouched; (5) every transporter emitted by `linkClusterBuffers` is
either an original one or a radial connector carrying
`clust_origin = clust_dest`. -/
theorem C4_amended_no_self_loops :
    (∀ (pts : List (ℤ × ℤ)) (st : AState), alignedState st →
      pts.length = st.resourceIdx.length →
      selfLoopFree (reviseCoordsCore pts st).lines)
  ∧ (∀ (st : AState) (k : Nat),
      (rcRemoveStep st k).lines = st.lines.eraseIdx k
      ∧ (∀ j, (rcRemoveStep st k).clusters.getD j none =
          if j < 2 * k then st.clusters.getD j none
          else st.clusters.getD (j + 2) none)
      ∧ (∀ j, (rcRemoveStep st k).resourceIdx.getD j 0 =
          if j < 2 * k then st.resourceIdx.getD j 0
          else st.resourceIdx.getD (j + 2) 0 - 2))
  ∧ (∀ (fuel : Nat) (st : AState) (k1 : Nat) (st2 : AState),
      jlsRun fuel st k1 = Except.ok st2 → selfLoopFree st.lines →
      selfLoopFree st2.lines)
  ∧ (∀ (st : AState) (cc : List (ℤ × ℤ)), (addIndBuffers st cc).lines = st.lines)
  ∧ (∀ (st : AState) (rad : List (Nat × String × Option Nat)) (ls : List Line),
      linkClusterBuffers st rad = Except.ok ls →
      ∀ l ∈ ls, l ∈ st.lines ∨ l.clust_origin = l.clust_dest) := by
  refine ⟨reviseCoordsCore_selfLoopFree, ?_, jlsRun_selfLoopFree, fun _ _ => rfl, ?_⟩
  · intro st k
    refine ⟨rfl, fun j => ?_, fun j => ?_⟩
    · show (eraseIdxPair st.clusters (2 * k)).getD j none = _
      simp only [eraseIdxPair]
      have h12 : j + 1 + 1 = j + 2 := by omega
      rw [getD_eraseIdx]
      by_cases hj : j < 2 * k
      · rw [if_pos hj, getD_eraseIdx, if_pos (by omega), if_pos hj]
      · rw [if_neg hj, getD_eraseIdx, if_neg (by omega), if_neg hj, h12]
    · show (shiftFromBy (eraseIdxPair st.resourceIdx (2 * k)) (2 * k) 2).getD j 0 = _
      simp only [eraseIdxPair]
      have h12 : j + 1 + 1 = j + 2 := by omega
      rw [getD_shiftFromBy, getD_eraseIdx]
      by_cases hj : j < 2 * k
      · rw [if_pos hj, if_pos hj, getD_eraseIdx, if_pos (by omega), if_pos hj]
      · rw [if_neg hj, if_neg hj, getD_eraseIdx, if_neg (by omega), if_neg hj, h12]
  · intro st rad ls h l hl
    simp only [linkClusterBuffers] at h
    rcases hf : rad.foldlM (lcCluster st) ⟨0, 0, 0, 0, 0, [], []⟩ with e | acc
    · rw [hf] at h
      exact Except.noConfusion h
    · rw [hf] at h
      simp only [Except.map] at h
      obtain rfl := Except.ok.inj h
      rcases List.mem_append.mp hl with hm | hm
      · exact Or.inl hm
      · refine Or.inr ?_
        obtain ⟨i, hi, rfl⟩ := List.mem_map.mp hm
        have hstore := lcClusters_storeOut st rad _ acc hf
          (fun x hx => absurd hx (List.not_mem_nil x))
        by_cases hlen : i < acc.store.length
        · rw [List.getD_eq_getElem _ _ hlen]
          exact hstore _ (List.getElem_mem hlen)
        · rw [List.getD_eq_default _ _ (by omega)]
          rfl

/-- Witness for C4: the `joinLineSegs` preservation clause applied to a
concrete one-transporter run that terminates unchanged. -/
theorem C4_amended_no_self_loops_witness :
    jlsRun 3 c4jlsSt 0 = Except.ok c4jlsSt ∧ selfLoopFree c4jlsSt.lines :=
  ⟨by decide, C4_amended_no_self_loops.2.2.1 3 c4jlsSt 0 c4jlsSt (by decide)
    (by unfold selfLoopFree; decide)⟩

/-- **C5** (amended).  For a cluster with more than one member buffer the
primary is selected by a sequential scan in discovery order: only the top
class of each table wins at its *first* discovery (ElecLine: `LoadC`;
NGPipe: `NGReceiptDelivery`; both oil pipes: `OilPort`; CoalRailroad:
`CoalDock`).  Below the top class, the *last*-discovered member of the
highest-priority present class wins: for ElecLine the last `LoadS`, else
the last `GenC`, else the last `GenS`, else no primary; for the oil
pipes the last `OilTerminal`, else the last `OilRefinery`, else no
primary (`OilCrudePipe` is handled identically to `OilRefPipe`); for
CoalRailroad the last `CoalSource`, else none.  For NGPipe the table
`NGProcessor > Compressor > any` is not enforced at all: in the absence
of an `NGReceiptDelivery`, the last-discovered member buffer wins
whatever its node type.  A cluster with exactly one member buffer yields
that buffer unconditionally. -/
theorem C5_amended_selection :
    (∀ nodes idxs q, (pairsOf nodes idxs).find? (typeIs "LoadC") = some q →
        findClusterPrimary nodes "ElecLine" idxs = (some q.2, some q.1))
  ∧ (∀ nodes idxs q, (pairsOf nodes idxs).find? (typeIs "LoadC") = none →
        (pairsOf nodes idxs).reverse.find? (typeIs "LoadS") = some q →
        findClusterPrimary nodes "ElecLine" idxs = (some q.2, some q.1))
  ∧ (∀ nodes idxs q, (pairsOf nodes idxs).find? (typeIs "LoadC") = none →
        (pairsOf nodes idxs).find? (typeIs "LoadS") = none →
        (pairsOf nodes idxs).reverse.find? (typeIs "GenC") = some q →
        findClusterPrimary nodes "ElecLine" idxs = (some q.2, some q.1))
  ∧ (∀ nodes idxs q, (pairsOf nodes idxs).find? (typeIs "LoadC") = none →
        (pairsOf nodes idxs).find? (typeIs "LoadS") = none →
        (pairsOf nodes idxs).find? (typeIs "GenC") = none →
        (pairsOf nodes idxs).reverse.find? (typeIs "GenS") = some q →
        findClusterPrimary nodes "ElecLine" idxs = (some q.2, some q.1))
  ∧ (∀ nodes idxs,
        (∀ p ∈ pairsOf nodes idxs, p.2.nodeType ≠ "LoadC" ∧ p.2.nodeType ≠ "LoadS"
          ∧ p.2.nodeType ≠ "GenC" ∧ p.2.nodeType ≠ "GenS") →
        findClusterPrimary nodes "ElecLine" idxs = (none, none))
  ∧ (∀ nodes idxs q, (pairsOf nodes idxs).find? (typeIs "NGReceiptDelivery") = some q →
        findClusterPrimary nodes "NGPipe" idxs = (some q.2, some q.1))
  ∧ (∀ nodes idxs q, (pairsOf nodes idxs).find? (typeIs "NGReceiptDelivery") = none →
        (pairsOf nodes idxs).getLast? = some q →
        findClusterPrimary nodes "NGPipe" idxs = (some q.2, some q.1))
  ∧ (∀ nodes idxs q, (pairsOf nodes idxs).find? (typeIs "OilPort") = some q →
        findClusterPrimary nodes "OilRefPipe" idxs = (some q.2, some q.1))
  ∧ (∀ nodes idxs q, (pairsOf nodes idxs).find? (typeIs "OilPort") = none →
        (pairsOf nodes idxs).reverse.find? (typeIs "OilTerminal") = some q →
        findClusterPrimary nodes "OilRefPipe" idxs = (some q.2, some q.1))
  ∧ (∀ nodes idxs q, (pairsOf nodes idxs).find? (typeIs "OilPort") = none →
        (pairsOf nodes idxs).find? (typeIs "OilTerminal") = none →
        (pairsOf nodes idxs).reverse.find? (typeIs "OilRefinery") = some q →
        findClusterPrimary nodes "OilRefPipe" idxs = (some q.2, some q.1))
  ∧ (∀ nodes idxs,
        findClusterPrimary nodes "OilCrudePipe" idxs
          = findClusterPrimary nodes "OilRefPipe" idxs)
  ∧ (∀ nodes idxs q, (pairsOf nodes idxs).find? (typeIs "CoalDock") = some q →
        findClusterPrimary nodes "CoalRailroad" idxs = (some q.2, some q.1))
  ∧ (∀ nodes idxs q, (pairsOf nodes idxs).find? (typeIs "CoalDock") = none →
        (pairsOf nodes idxs).reverse.find? (typeIs "CoalSource") = some q →
        findClusterPrimary nodes "CoalRailroad" idxs = (some q.2, some q.1))
  ∧ (∀ nodes clusters resourceIdx L2 lineType c r,
        ((positionsOf clusters c).map (fun i => resourceIdx.getD i 0)).filter
            (fun r => decide (L2 ≤ r)) = [r] →
        selectClusterPrimary nodes clusters resourceIdx L2 lineType c
          = (some (nodes.getD (r - L2) defNode), none)) := by
  have helec : ∀ nodes idxs,
      findClusterPrimary nodes "ElecLine" idxs = fcpElec (pairsOf nodes idxs) none none none := by
    intro nodes idxs
    simp [findClusterPrimary]
  have hng : ∀ nodes idxs,
      findClusterPrimary nodes "NGPipe" idxs = fcpNG (pairsOf nodes idxs) none none none := by
    intro nodes idxs
    simp [findClusterPrimary]
  have hoil : ∀ nodes idxs,
      findClusterPrimary nodes "OilRefPipe" idxs = fcpOil (pairsOf nodes idxs) none none none := by
    intro nodes idxs
    simp [findClusterPrimary]
  have hcoal : ∀ nodes idxs,
      findClusterPrimary nodes "CoalRailroad" idxs
        = fcpCoal (pairsOf nodes idxs) none none none := by
    intro nodes idxs
    simp [findClusterPrimary]
  refine ⟨?_, ?_, ?_, ?_, ?_, ?_, ?_, ?_, ?_, ?_, ?_, ?_, ?_, ?_⟩
  · intro nodes idxs q hq
    rw [helec]; exact fcpElec_top _ q hq none none none
  · intro nodes idxs q h1 hq
    rw [helec]; exact fcpElec_lastLoadS _ h1 q hq none none none
  · intro nodes idxs q h1 h2 hq
    rw [helec]; exact fcpElec_lastGenC _ h1 h2 q hq none none none (by simp)
  · intro nodes idxs q h1 h2 h3 hq
    rw [helec]; exact fcpElec_lastGenS _ h1 h2 h3 q hq none none none (by simp) (by simp)
  · intro nodes idxs h
    rw [helec]; exact fcpElec_const _ h none none none
  · intro nodes idxs q hq
    rw [hng]; exact fcpNG_top _ q hq none none none
  · intro nodes idxs q h1 hq
    rw [hng]; exact fcpNG_last _ h1 q hq none none none
  · intro nodes idxs q hq
    rw [hoil]; exact fcpOil_top _ q hq none none none
  · intro nodes idxs q h1 hq
    rw [hoil]; exact fcpOil_lastTerminal _ h1 q hq none none none
  · intro nodes idxs q h1 h2 hq
    rw [hoil]; exact fcpOil_lastRefinery _ h1 h2 q hq none none none (by simp)
  · intro nodes idxs
    rw [hoil]
    simp [findClusterPrimary]
  · intro nodes idxs q hq
    rw [hcoal]; exact fcpCoal_top _ q hq none none none
  · intro nodes idxs q h1 hq
    rw [hcoal]; exact fcpCoal_lastSource _ h1 q hq none none none
  · intro nodes clusters resourceIdx L2 lineType c r hres
    simp only [selectClusterPrimary]
    rw [hres]
    simp

/-- Witness for C5: the amended rule applied to the concrete `NGPipe`
cluster of the counterexample — the last-discovered buffer wins. -/
theorem C5_amended_selection_witness :
    findClusterPrimary [c5Proc, c5Stor] "NGPipe" [0, 1] = (some c5Stor, some 1) :=
  C5_amended_selection.2.2.2.2.2.2.1 [c5Proc, c5Stor] [0, 1] (1, c5Stor)
    (by decide) (by decide)

/-- **C5** (counterexample).  For an `NGPipe` cluster holding an
`NGProcessor` and then an `NGStorage`, the claim's priority table
(`NGReceiptDelivery > NGProcessor > Compressor > any`) selects the
processor; the code returns the storage node, because the final `else`
of the scan overwrites the running primary for every `any`-class node. -/
theorem C5_ngprocessor_not_selected :
    findClusterPrimary [c5Proc, c5Stor] "NGPipe" [0, 1] = (some c5Stor, some 1)
    ∧ c5Proc.nodeType = "NGProcessor"
    ∧ c5Stor.nodeType ≠ "NGReceiptDelivery"
    ∧ c5Stor.nodeType ≠ "NGProcessor"
    ∧ c5Stor.nodeType ≠ "compressor" := by
  decide

/-- **C6** (code bug).  On `c6st`, the non-primary buffer `B2` shares no
refinement with the primary `P`, so the claim mandates that no connector
be emitted for it; instead the unconditional mutate-and-append block
re-appends (and re-targets to `B2`) the connector object built for `B1`:
the result is two appended references to one object, both now pointing
at `B2`, and the `B1` connector is lost. -/
theorem C6_stale_connector_emitted :
    listInter (c6st.nodes.getD 0 defNode).refinement
        (c6st.nodes.getD 2 defNode).refinement = []
    ∧ ((linkClusterBuffers c6st [(0, "NGPipe", some 5)]).toOption.getD []).length = 2
    ∧ (((linkClusterBuffers c6st [(0, "NGPipe", some 5)]).toOption.getD []).getD 0
        defLine).tBus = .name "B2"
    ∧ (((linkClusterBuffers c6st [(0, "NGPipe", some 5)]).toOption.getD []).getD 1
        defLine).tBus = .name "B2" := by
  decide

/-- **C7** (code bug).  First conjunct: a synthetic-transporter queue
whose first entry carries the unrecognized refinement `solar` crashes
(`NameError`) because the unhandled-refinement branch only prints and
the subsequent field assignments reference the never-bound
`new_instance`.  Remaining conjuncts: after a recognized `coal` entry,
an unrecognized `solar` entry re-appends the previous coal transporter
(two aliased references), re-pointed at the solar entry's coordinates —
the claim instead demands that nothing be appended. -/
theorem C7_unrecognized_refinement_not_skipped :
    updateTransportersLoop ["solar"] [⟨0, 0, 1, 2⟩, ⟨1, 0, 3, 4⟩] [some 0, some 1]
        none none none none none 0 [(0, 1)]
      = Except.error "NameError: new_instance is not defined"
    ∧ ((updateTransportersLoop ["coal", "solar"] c7pts [some 0, some 1, some 2, some 3]
        none none none none none 0 [(0, 1), (2, 3)]).map
          (fun acc => (utEmitted acc).length)) = Except.ok 2
    ∧ ((updateTransportersLoop ["coal", "solar"] c7pts [some 0, some 1, some 2, some 3]
        none none none none none 0 [(0, 1), (2, 3)]).map
          (fun acc => ((utEmitted acc).getD 1 defLine).refinement)) = Except.ok ["coal"]
    ∧ ((updateTransportersLoop ["coal", "solar"] c7pts [some 0, some 1, some 2, some 3]
        none none none none none 0 [(0, 1), (2, 3)]).map
          (fun acc => ((utEmitted acc).getD 0 defLine).fBus)) = Except.ok (.loc 7 8) := by
  decide

/-- **C10** (confirmed).  The midpoint collapse overwrites the
coordinates of exactly the entries with a non-null cluster id — each
receives the arithmetic mean of its cluster's members' original
coordinates — while every entry whose cluster id is `None` retains its
original coordinates, and the returned cluster-center list has exactly
one entry per distinct non-null cluster id. -/
theorem C10_midpoint_collapse (xs ys : List ℚ) (clusters : List (Option Nat))
    (hx : xs.length = clusters.length) (hy : ys.length = clusters.length) :
    (∀ i, i < clusters.length → clusters.getD i none = none →
        (getClustMidpointsRef xs ys clusters).xs.getD i 0 = xs.getD i 0
      ∧ (getClustMidpointsRef xs ys clusters).ys.getD i 0 = ys.getD i 0)
  ∧ (∀ i c, i < clusters.length → clusters.getD i none = some c →
        (getClustMidpointsRef xs ys clusters).xs.getD i 0
          = meanAt xs (clustMembers clusters c)
      ∧ (getClustMidpointsRef xs ys clusters).ys.getD i 0
          = meanAt ys (clustMembers clusters c))
  ∧ (getClustMidpointsRef xs ys clusters).clustCenter.length
      = (sortedUnique (clusters.filterMap id)).length
  ∧ (∀ c, c ∈ sortedUnique (clusters.filterMap id) ↔ some c ∈ clusters)
  ∧ (sortedUnique (clusters.filterMap id)).Nodup := by
  have hmain := midFold_invariant clusters xs ys (sortedUnique (clusters.filterMap id)) []
    ⟨[], List.replicate clusters.length (0, 0), xs, ys⟩
    (by simpa using nodup_sortedUnique (clusters.filterMap id)) hx hy
    (fun i hi => ⟨fun _ => ⟨rfl, rfl⟩,
      fun c _ hm => absurd hm (List.not_mem_nil c),
      fun c _ _ => ⟨rfl, rfl⟩⟩)
  obtain ⟨_, _, hcc, hinv⟩ := hmain
  have hdef : getClustMidpointsRef xs ys clusters
      = (sortedUnique (clusters.filterMap id)).foldl (midStep clusters)
        ⟨[], List.replicate clusters.length (0, 0), xs, ys⟩ := rfl
  have hmemiff : ∀ c, c ∈ sortedUnique (clusters.filterMap id) ↔ some c ∈ clusters := by
    intro c
    rw [mem_sortedUnique, List.mem_filterMap]
    constructor
    · rintro ⟨b, hb, he⟩
      have : b = some c := by simpa using he
      rw [this] at hb
      exact hb
    · intro hc
      exact ⟨some c, hc, rfl⟩
  refine ⟨?_, ?_, ?_, hmemiff, nodup_sortedUnique _⟩
  · intro i hi hn
    rw [hdef]
    exact (hinv i hi).1 hn
  · intro i c hi hc
    rw [hdef]
    apply (hinv i hi).2.1 c hc
    have hmem : clusters.getD i none ∈ clusters := by
      rw [List.getD_eq_getElem?_getD, List.getElem?_eq_getElem hi]
      exact List.getElem_mem hi
    rw [hc] at hmem
    simpa using (hmemiff c).mpr hmem
  · rw [hdef, hcc]
    simp

/-- Witness for C10 at a concrete table: entry 2 (unclustered) keeps its
coordinate; entry 0 receives the mean of cluster 4's members. -/
theorem C10_midpoint_collapse_witness :
    (getClustMidpointsRef [(1 : ℚ), 3, 7] [(2 : ℚ), 2, 5]
        [some 4, some 4, none]).xs.getD 2 0 = ([(1 : ℚ), 3, 7]).getD 2 0
    ∧ (getClustMidpointsRef [(1 : ℚ), 3, 7] [(2 : ℚ), 2, 5]
        [some 4, some 4, none]).xs.getD 0 0
      = meanAt [(1 : ℚ), 3, 7] (clustMembers [some 4, some 4, none] 4) := by
  have h := C10_midpoint_collapse [(1 : ℚ), 3, 7] [(2 : ℚ), 2, 5]
    [some 4, some 4, none] rfl rfl
  exact ⟨(h.1 2 (by decide) rfl).1, (h.2.1 0 4 (by decide) rfl).1⟩

/-- **C9** (confirmed).  Translating every stored coordinate of both
input tables by one fixed vector of magnitude smaller than `eps1 / 10`
leaves the output of the spatial clusterer — the per-entry cluster array
and the synthetic transporter queue — unchanged.  (In the embedding this
holds because every coordinate access of the clusterer goes through a
difference of two translated coordinates.) -/
theorem C9_translation_invariance (v : ℤ × ℤ)
    (_hmag : v.1 ^ 2 + v.2 ^ 2 < (eps1 / 10) ^ 2)
    (ptsOD ptsB : List Entry) (nRowsOD : Nat) :
    (snapEdges2GridRef (ptsOD.map (translate v)) (ptsB.map (translate v)) nRowsOD).clusters
      = (snapEdges2GridRef ptsOD ptsB nRowsOD).clusters
    ∧ (snapEdges2GridRef (ptsOD.map (translate v)) (ptsB.map (translate v))
        nRowsOD).resourcesToAdd
      = (snapEdges2GridRef ptsOD ptsB nRowsOD).resourcesToAdd := by
  have hfull : snapEdges2GridRef (ptsOD.map (translate v)) (ptsB.map (translate v)) nRowsOD
      = snapEdges2GridRef ptsOD ptsB nRowsOD := by
    simp only [snapEdges2GridRef]
    rw [← List.map_append, List.length_map]
    rw [snapPrimary_map v ptsOD (ptsOD ++ ptsB) nRowsOD _
      (by rw [List.length_append]; exact Nat.le_add_right _ _)]
    apply snapSecondary_map
    rw [snapPrimary_clusters_length]
    simp [initState]
  exact ⟨by rw [hfull], by rw [hfull]⟩

/-- Witness for C9 at a concrete table and the grid vector `(1, 0)` (one
`10^-7`-degree step, far below `eps1 / 10`). -/
theorem C9_translation_invariance_witness :
    ((1 : ℤ) ^ 2 + (0 : ℤ) ^ 2 < (eps1 / 10) ^ 2)
    ∧ (snapEdges2GridRef (c1ptsOD.map (translate (1, 0))) (c1ptsB.map (translate (1, 0)))
        2).clusters
      = (snapEdges2GridRef c1ptsOD c1ptsB 2).clusters :=
  ⟨by decide, (C9_translation_invariance (1, 0) (by decide) c1ptsOD c1ptsB 2).1⟩

/-- **C8** (code bug).  The generator `c8G` burns processed oil, is no
endpoint of any processed-oil transporter, and the terminal `c8T` lies
0.1 degrees away — within the `4 * eps3` rescue radius.  The claim
mandates exactly one rescue `OilRefPipe`; the code emits nothing and
reports the plant stranded, because `if any(found)` applies Python
truthiness to the array of in-range neighbor *indices*, which is `[0]`
here and hence falsy. -/
theorem C8_index_zero_neighbor_missed :
    reviseOil [c8G, c8T] [] none = ⟨[], [0]⟩
    ∧ sqDist c8G.gpsX c8G.gpsY c8T.gpsX c8T.gpsY ≤ (eps3 * 4) ^ 2
    ∧ c8T.nodeType = "OilTerminal" := by
  decide

end Shape2XML
